import Mathlib

/-!
Verification development for the RefundRaja order-reconciliation core.

The Python source is shallowly embedded:
* dates are integers (days since an arbitrary epoch); Python
  `date + timedelta(days=w)` becomes integer addition;
* `Decimal` and `float` amounts are rationals (all monetary and confidence
  arithmetic in the source is addition, comparison, max and exact
  two-decimal quantization, which is exact on rationals);
* Django model instances are records; `obj.save()` is a pure function on the
  record; the per-user order table is a `List Order`;
* Python dictionary fields that may be absent are `Option` values, and Python
  truthiness of `.get(...)` results is made explicit (`none`, empty string and
  zero are falsy; date values are truthy whenever present);
* the `post_save` / `post_delete` signal handlers of `orders/models.py` are
  functions applied at each product save, mirroring `orders/models.py`.
-/

/-! ## Text utilities (Python `in`, `strip`, `lower`, `split`, `isupper`) -/

/-- Python substring helpers: does the character list start with `pat`. -/
def startsWithChars : List Char → List Char → Bool
  | [], _ => true
  | _ :: _, [] => false
  | a :: as, b :: bs => a == b && startsWithChars as bs

/-- Python `pat in s` on character lists. -/
def containsChars (pat : List Char) : List Char → Bool
  | [] => pat.isEmpty
  | c :: rest => startsWithChars pat (c :: rest) || containsChars pat rest

/-- Python `pat in s` on strings (used for keyword scans). -/
def strContains (s pat : String) : Bool := containsChars pat.toList s.toList

/-- Python `\s` whitespace class (ASCII part, as used by the source texts). -/
def isWsC (c : Char) : Bool :=
  c == ' ' || c == '\t' || c == '\n' || c == '\r' || c == '\x0b' || c == '\x0c'

/-- Python `str.strip()`. -/
def pyStrip (s : String) : String :=
  String.mk ((s.toList.dropWhile isWsC).reverse.dropWhile isWsC |>.reverse)

/-- Python `[l.strip() for l in s.split(chr(10)) if l.strip()]`. -/
def strippedLines (s : String) : List String :=
  ((s.splitOn "\n").map pyStrip).filter (fun l => l ≠ "")

/-- Python `str.isupper()`: at least one cased character and all cased characters upper. -/
def pyIsUpper (s : String) : Bool :=
  let cased := s.toList.filter Char.isAlpha
  !cased.isEmpty && cased.all Char.isUpper

/-- Python `str.isdigit()` (ASCII digits, as relevant here). -/
def pyIsDigit (s : String) : Bool :=
  !s.toList.isEmpty && s.toList.all Char.isDigit

/-- Python `len(s.split())`: number of whitespace-separated words. -/
def pyWordCount (s : String) : Nat :=
  ((s.split isWsC).filter (fun w => w ≠ "")).length

/-! ## Python truthiness of optional dictionary values -/

/-- Truthiness of `d.get(key)` for a string field: present and non-empty. -/
def truthyStr : Option String → Bool
  | some s => s ≠ ""
  | none => false

/-- Truthiness of `d.get(key)` for a Decimal/float field: present and non-zero. -/
def truthyRat : Option ℚ → Bool
  | some q => q ≠ 0
  | none => false

/-- Truthiness of `d.get(key)` for a date field: a date object is always truthy. -/
def truthyDate (d : Option Int) : Bool := d.isSome

/-! ## Data model (orders/models.py) -/

/-- A parsed product entry produced by extraction (`ParsedProduct` of the spec):
the product dicts built by the parsers, which always populate all five keys. -/
structure PProduct where
  name : String
  size : String
  quantity : Int
  price : ℚ
  seller : String
  deriving Repr, DecidableEq

/-- OrderProduct model fields used by the core (orders/models.py). -/
structure OrderProduct where
  product_name : String
  product_size : String
  product_quantity : Int
  product_price : ℚ
  seller_name : String
  return_deadline : Option Int
  return_status : String
  return_requested_at : Option Int
  returned_at : Option Int
  return_reason : String
  deriving Repr, DecidableEq

/-- Order model fields used by the core (orders/models.py).  The
`parsed_json` blob is modelled by its individually accessed entries
(`tracking.tracking_number` etc.); owned products are carried inline. -/
structure Order where
  merchant_name : String
  order_id : String
  order_date : Int
  delivery_date : Option Int
  total_amount : ℚ
  currency : String
  return_window_days : Int
  return_deadline : Option Int
  parsed_confidence : ℚ
  needs_review : Bool
  tracking_number : Option String
  tracking_logistics : Option String
  tracking_url : Option String
  tracking_shipping_date : Option Int
  tracking_estimated : Option Int
  shipping_amount_json : Option ℚ
  products : List OrderProduct
  deriving Repr, DecidableEq

/-- Order.calculate_return_deadline: delivery date + window when the delivery
date is present and the window is non-zero (Python truthiness of the int). -/
def Order.calculate_return_deadline (o : Order) : Option Int :=
  match o.delivery_date with
  | some d => if o.return_window_days ≠ 0 then some (d + o.return_window_days) else none
  | none => none

/-- Order.calculate_total_amount: sum of price * quantity over the products. -/
def Order.calculate_total_amount (o : Order) : ℚ :=
  (o.products.map (fun p => p.product_price * (p.product_quantity : ℚ))).sum

/-- Order.save: always recompute the return deadline, then persist. -/
def Order.save (o : Order) : Order :=
  { o with return_deadline := o.calculate_return_deadline }

/-- OrderProduct.calculate_return_deadline: the product's own deadline when set,
otherwise the owning order's delivery date + window. -/
def OrderProduct.calculate_return_deadline (p : OrderProduct) (order : Order) : Option Int :=
  match p.return_deadline with
  | some d => some d
  | none =>
    match order.delivery_date with
    | some dd => if order.return_window_days ≠ 0 then some (dd + order.return_window_days) else none
    | none => none

/-- OrderProduct.save: auto-fill the return deadline when not set. -/
def OrderProduct.save (p : OrderProduct) (order : Order) : OrderProduct :=
  if p.return_deadline = none then
    { p with return_deadline := p.calculate_return_deadline order }
  else p

/-- OrderProduct.can_return: not in a terminal status, a deadline exists, and
today is on or before it. -/
def OrderProduct.can_return (p : OrderProduct) (order : Order) (today : Int) : Bool :=
  if p.return_status == "returned" || p.return_status == "return_rejected" then false
  else
    match p.calculate_return_deadline order with
    | some d => decide (today ≤ d)
    | none => false

/-- OrderProduct.request_return (timezone.now modelled by explicit
`today` / `now` arguments): returns the success flag and the saved product. -/
def OrderProduct.request_return (p : OrderProduct) (order : Order) (today now : Int)
    (reason : String) : Bool × OrderProduct :=
  if p.can_return order today then
    (true, OrderProduct.save
      { p with return_status := "return_requested", return_reason := reason,
               return_requested_at := some now } order)
  else (false, p)

/-- OrderProduct.mark_returned: moves return_requested to returned; the source
checks only the current status, not the deadline. -/
def OrderProduct.mark_returned (p : OrderProduct) (order : Order) (now : Int) :
    Bool × OrderProduct :=
  if p.return_status == "return_requested" then
    (true, OrderProduct.save { p with return_status := "returned", returned_at := some now } order)
  else (false, p)

/-- Signal handler update_order_total_on_product_save: recompute the order total
from its products.  The handler saves with update_fields restricted to
total_amount, so only the total is persisted by it. -/
def update_order_total_on_product_save (o : Order) : Order :=
  { o with total_amount := o.calculate_total_amount }

/-- Signal handler update_order_total_on_product_delete (same recomputation). -/
def update_order_total_on_product_delete (o : Order) : Order :=
  { o with total_amount := o.calculate_total_amount }

/-! ## Parsed record consumed by the merger (parser output dictionary) -/

/-- The parsed_data dictionary handed to OrderMerger; absent keys are `none`. -/
structure ParsedData where
  order_id : Option String := none
  email_type : Option String := none
  merchant_name : Option String := none
  amount : Option ℚ := none
  shipping_amount : Option ℚ := none
  order_date : Option Int := none
  delivery_date : Option Int := none
  return_deadline : Option Int := none
  shipping_date : Option Int := none
  estimated_delivery : Option Int := none
  tracking_number : Option String := none
  logistics_partner : Option String := none
  tracking_url : Option String := none
  return_window_days : Option Int := none
  confidence : Option ℚ := none
  parsed_confidence : Option ℚ := none
  currency : Option String := none
  products : List PProduct := []
  product_name : Option String := none
  product_size : Option String := none
  product_quantity : Option Int := none
  seller_name : Option String := none
  deriving Repr

/-! ## OrderMerger (parser/services/order_merger.py) -/

/-- Replace the first element satisfying `p` by `f` of it. -/
def replaceFirstBy {α : Type} (p : α → Bool) (f : α → α) : List α → List α
  | [] => []
  | x :: rest => if p x then f x :: rest else x :: replaceFirstBy p f rest

/-- Round a rational to the nearest integer, ties to even — the rounding of
Python's Decimal.quantize under the default context (ROUND_HALF_EVEN).
Works on num/emod den so no cast into ℚ is needed: for x = n/d (d > 0) the
floor is n / d and the fractional part compares to 1/2 as 2*(n % d) vs d. -/
def roundHalfEven (x : ℚ) : Int :=
  let d : Int := (x.den : Int)
  let f : Int := x.num / d
  let r : Int := x.num % d
  if 2 * r < d then f
  else if d < 2 * r then f + 1
  else if f % 2 = 0 then f else f + 1

/-- Decimal(str(price)).quantize(Decimal('0.01')) of order_merger.py lines
122/129: two-decimal half-even rounding.  (str of a float is its shortest
decimal representation, so Decimal(str(float(x))) is the identity on the
short-decimal rationals of this model; the quantize is the real change.) -/
def quantize2 (q : ℚ) : ℚ := Rat.divInt (roundHalfEven (q * 100)) 100

/-- The dict key of order_merger.py line 115: the single string
f"{name}|{size}".  Distinct (name, size) pairs whose components contain '|'
can collide on this key. -/
def dedupKey (p : PProduct) : String := p.name ++ "|" ++ p.size

/-- The deduplication step of create_new_order_from_email: the incoming
product dict is merged into the ordered map keyed by the string
f"{name}|{size}" — on a key hit quantities are summed and the price is
replaced (re-quantized) only when the incoming raw price strictly exceeds the
stored quantized one; on a miss the entry is appended with its price
quantized to two decimals. -/
def mergeIntoUnique : List PProduct → PProduct → List PProduct
  | [], p => [{ p with price := quantize2 p.price }]
  | q :: rest, p =>
    if dedupKey q = dedupKey p then
      { q with quantity := q.quantity + p.quantity,
               price := if p.price > q.price then quantize2 p.price else q.price } :: rest
    else q :: mergeIntoUnique rest p

/-- unique_products of create_new_order_from_email. -/
def uniqueProducts (ps : List PProduct) : List PProduct := ps.foldl mergeIntoUnique []

/-- Creation (or safety-check update) of one OrderProduct in
create_new_order_from_email, followed by the post_save signal. -/
def upsertProduct (o : Order) (p : PProduct) : Order :=
  if o.products.any (fun q => q.product_name == p.name && q.product_size == p.size) then
    let prods := replaceFirstBy (fun q => q.product_name == p.name && q.product_size == p.size)
      (fun q => OrderProduct.save
        { q with product_quantity := q.product_quantity + p.quantity,
                 product_price := if p.price > q.product_price then p.price else q.product_price }
        o) o.products
    update_order_total_on_product_save { o with products := prods }
  else
    let newProd := OrderProduct.save
      { product_name := p.name, product_size := p.size, product_quantity := p.quantity,
        product_price := p.price, seller_name := p.seller,
        return_deadline := o.return_deadline, return_status := "not_returned",
        return_requested_at := none, returned_at := none, return_reason := "" } o
    update_order_total_on_product_save { o with products := o.products ++ [newProd] }

/-- OrderMerger.create_new_order_from_email. -/
def create_new_order_from_email (pd : ParsedData) : Option Order :=
  if truthyStr pd.merchant_name = false then none
  else
    match pd.order_date <|> pd.shipping_date <|> pd.delivery_date with
    | none => none
    | some od =>
      let conf := pd.parsed_confidence.getD (pd.confidence.getD 0)
      let isShipDel := pd.email_type == some "shipping" || pd.email_type == some "delivery"
      let o0 : Order :=
        { merchant_name := pd.merchant_name.getD ""
          order_id := pd.order_id.getD ""
          order_date := od
          delivery_date := pd.delivery_date <|> pd.estimated_delivery
          currency := pd.currency.getD "INR"
          return_window_days := pd.return_window_days.getD 30
          parsed_confidence := conf
          needs_review := decide (conf < 0.7)
          total_amount := pd.amount.getD 0
          return_deadline := none
          tracking_number :=
            if isShipDel && truthyStr pd.tracking_number then pd.tracking_number else none
          tracking_logistics :=
            if isShipDel && truthyStr pd.logistics_partner then pd.logistics_partner else none
          tracking_url :=
            if isShipDel && truthyStr pd.tracking_url then pd.tracking_url else none
          tracking_shipping_date :=
            if isShipDel && truthyDate pd.shipping_date then pd.shipping_date else none
          tracking_estimated :=
            if isShipDel && truthyDate pd.estimated_delivery then pd.estimated_delivery else none
          shipping_amount_json := none
          products := [] }
      let o1 := o0.save
      let ps :=
        if pd.products.isEmpty then
          [{ name := pd.product_name.getD "Unknown Product"
             size := pd.product_size.getD ""
             quantity := pd.product_quantity.getD 1
             price := pd.amount.getD 0
             seller := pd.seller_name.getD "" }]
        else pd.products
      some ((uniqueProducts ps).foldl upsertProduct o1)

/-- One step of OrderMerger.update_products_with_prices: match by product name
only; overwrite the price when the incoming price is truthy; create a new
product when no name match and the incoming name is truthy. -/
def updateProductWithPrice (o : Order) (d : PProduct) : Order :=
  if o.products.any (fun q => q.product_name == d.name) then
    if d.price ≠ 0 then
      let prods := replaceFirstBy (fun q => q.product_name == d.name)
        (fun q => OrderProduct.save { q with product_price := d.price } o) o.products
      update_order_total_on_product_save { o with products := prods }
    else o
  else if d.name ≠ "" then
    let newP := OrderProduct.save
      { product_name := d.name, product_size := d.size, product_quantity := d.quantity,
        product_price := d.price, seller_name := d.seller,
        return_deadline := o.return_deadline, return_status := "not_returned",
        return_requested_at := none, returned_at := none, return_reason := "" } o
    update_order_total_on_product_save { o with products := o.products ++ [newP] }
  else o

/-- OrderMerger.update_products_with_prices. -/
def update_products_with_prices (o : Order) (ps : List PProduct) : Order :=
  ps.foldl updateProductWithPrice o

/-- OrderMerger.update_product_return_deadlines: push the order's stored return
deadline down to every product and save each one (firing the total signal when
there is at least one product). -/
def update_product_return_deadlines (o : Order) : Order :=
  if o.products.isEmpty then o
  else
    let prods := o.products.map
      (fun p => OrderProduct.save { p with return_deadline := o.return_deadline } o)
    update_order_total_on_product_save { o with products := prods }

/-- The stage-keyed field merges of OrderMerger.update_order_from_email
(the if/elif chain on email_type, before the confidence update). -/
def merge_confirmation_fields (o : Order) (pd : ParsedData) : Order :=
  let o := if truthyRat pd.amount then { o with total_amount := pd.amount.getD 0 } else o
  let o := if truthyDate pd.order_date then { o with order_date := pd.order_date.getD 0 } else o
  let o :=
    if truthyRat pd.shipping_amount && o.shipping_amount_json == none then
      { o with shipping_amount_json := pd.shipping_amount } else o
  update_products_with_prices o pd.products

def merge_delivery_fields (o : Order) (pd : ParsedData) : Order :=
  let o := if truthyDate pd.delivery_date then { o with delivery_date := pd.delivery_date } else o
  let o :=
    if truthyDate pd.return_deadline then { o with return_deadline := pd.return_deadline } else o
  let o :=
    if truthyRat pd.amount && (o.total_amount == 0) then
      { o with total_amount := pd.amount.getD 0 } else o
  let o :=
    if truthyStr pd.tracking_number || truthyStr pd.tracking_url then
      let o := if truthyStr pd.tracking_number then
        { o with tracking_number := pd.tracking_number } else o
      let o := if truthyStr pd.tracking_url then
        { o with tracking_url := pd.tracking_url } else o
      o
    else o
  update_product_return_deadlines o

def merge_shipping_fields (o : Order) (pd : ParsedData) : Order :=
  let o := if truthyStr pd.tracking_number then
    { o with tracking_number := pd.tracking_number } else o
  let o :=
    if truthyDate pd.estimated_delivery then
      let o := { o with tracking_estimated := pd.estimated_delivery }
      if o.delivery_date = none then { o with delivery_date := pd.estimated_delivery } else o
    else o
  let o := if truthyStr pd.logistics_partner then
    { o with tracking_logistics := pd.logistics_partner } else o
  let o := if truthyStr pd.tracking_url then
    { o with tracking_url := pd.tracking_url } else o
  let o := if truthyDate pd.shipping_date then
    { o with tracking_shipping_date := pd.shipping_date } else o
  o

def merge_stage_fields (o : Order) (pd : ParsedData) (email_type : Option String) : Order :=
  if email_type = some "confirmation" then merge_confirmation_fields o pd
  else if email_type = some "delivery" then merge_delivery_fields o pd
  else if email_type = some "shipping" then merge_shipping_fields o pd
  else o

/-- OrderMerger.update_order_from_email: stage-keyed merge policy, then the
confidence update, then the final save. -/
def update_order_from_email (o : Order) (pd : ParsedData) (email_type : Option String) : Order :=
  let o := merge_stage_fields o pd email_type
  let nc := pd.confidence.getD (pd.parsed_confidence.getD 0)
  let o :=
    if nc > o.parsed_confidence then
      { o with parsed_confidence := nc, needs_review := decide (nc < 0.7) }
    else o
  o.save

/-- The matching filter of create_or_update_order: same merchant
(case-insensitively) and either a direct order-id match or a stored
tracking-number match. -/
def matchesExisting (oid merchant : String) (o : Order) : Bool :=
  o.merchant_name.toLower == merchant.toLower &&
  (o.order_id == oid || o.tracking_number == some oid)

/-- OrderMerger.create_or_update_order over the user's order table: returns the
resulting order (none on abstention) and the updated table. -/
def create_or_update_order (db : List Order) (pd : ParsedData) :
    Option Order × List Order :=
  if truthyStr pd.order_id && truthyStr pd.merchant_name then
    let oid := pd.order_id.getD ""
    let m := pd.merchant_name.getD ""
    match db.find? (matchesExisting oid m) with
    | some o =>
      let o' := update_order_from_email o pd pd.email_type
      (some o', replaceFirstBy (matchesExisting oid m) (fun _ => o') db)
    | none =>
      match create_new_order_from_email pd with
      | some o => (some o, db ++ [o])
      | none => (none, db)
  else (none, db)

/-! ## Email type detector (parser/html_parsers/email_type_detector.py) -/

/-- The document view consumed by the detector: the id attributes of its span
and li elements, and its visible text. -/
structure DetectorDoc where
  spanIds : List String
  liIds : List String
  text : String
  deriving Repr

/-- The confirmation phrase dictionary of EMAIL_TYPE_PATTERNS. -/
def confirmationPhrases : List String :=
  ["order confirmed", "order placed", "order received",
   "payment successful", "order confirmation", "thank you for your order",
   "order details", "order summary"]

/-- The shipping phrase dictionary of EMAIL_TYPE_PATTERNS. -/
def shippingPhrases : List String :=
  ["shipped", "dispatched", "on the way", "in transit",
   "tracking", "shipment", "out for delivery", "track your order"]

/-- The delivery phrase dictionary of EMAIL_TYPE_PATTERNS. -/
def deliveryPhrases : List String :=
  ["delivered", "delivery successful", "package delivered",
   "order delivered", "received your order", "delivered successfully",
   "available till", "return window", "return policy"]

/-- EMAIL_TYPE_PATTERNS in declaration (= iteration) order. -/
def EMAIL_TYPE_PATTERNS : List (String × List String) :=
  [("confirmation", confirmationPhrases),
   ("shipping", shippingPhrases),
   ("delivery", deliveryPhrases)]

/-- Any phrase of the dictionary present in the text. -/
def anyPhrase (text : String) (ps : List String) : Bool :=
  ps.any (fun p => strContains text p)

/-- EmailTypeDetector.detect_email_type: the ordered structural-marker checks,
then the keyword dictionaries in declaration order, else unknown.  The local
lowered-text variable of the source is inlined as doc.text.toLower. -/
def detect_email_type (doc : DetectorDoc) : String :=
  if doc.spanIds.contains "AvailableTillDateId" then "delivery"
  else if doc.spanIds.contains "OrderDeliveredDateId" then "delivery"
  else if doc.spanIds.contains "CourierDisplayNameId" then "shipping"
  else if doc.spanIds.any (fun i => strContains i.toLower "tracking") then "shipping"
  else if doc.liIds.contains "OrderId" && strContains doc.text.toLower "shipped" then "shipping"
  else if doc.liIds.contains "OrderId" then "confirmation"
  else if doc.spanIds.contains "PacketCreationTimeId" then "confirmation"
  else if doc.spanIds.contains "CustomerPromiseTimeId" then "confirmation"
  else
    match EMAIL_TYPE_PATTERNS.find?
        (fun cat => cat.2.any (fun p => strContains doc.text.toLower p)) with
    | some cat => cat.1
    | none => "unknown"

/-! ## Shared sample data and helper lemmas -/

/-- A concrete base order used by witnesses and counterexamples. -/
def baseOrder : Order :=
  { merchant_name := "H&M", order_id := "123", order_date := 0, delivery_date := none,
    total_amount := 0, currency := "INR", return_window_days := 30, return_deadline := none,
    parsed_confidence := 1, needs_review := false, tracking_number := none,
    tracking_logistics := none, tracking_url := none, tracking_shipping_date := none,
    tracking_estimated := none, shipping_amount_json := none, products := [] }

theorem OrderProduct.save_return_status (p : OrderProduct) (ord : Order) :
    (OrderProduct.save p ord).return_status = p.return_status := by
  unfold OrderProduct.save; split <;> rfl

theorem OrderProduct.save_product_price (p : OrderProduct) (ord : Order) :
    (OrderProduct.save p ord).product_price = p.product_price := by
  unfold OrderProduct.save; split <;> rfl

theorem OrderProduct.save_product_quantity (p : OrderProduct) (ord : Order) :
    (OrderProduct.save p ord).product_quantity = p.product_quantity := by
  unfold OrderProduct.save; split <;> rfl

theorem OrderProduct.save_product_name (p : OrderProduct) (ord : Order) :
    (OrderProduct.save p ord).product_name = p.product_name := by
  unfold OrderProduct.save; split <;> rfl

theorem OrderProduct.save_product_size (p : OrderProduct) (ord : Order) :
    (OrderProduct.save p ord).product_size = p.product_size := by
  unfold OrderProduct.save; split <;> rfl

theorem Order.save_return_deadline_recomputed (x : Order) :
    (Order.save x).return_deadline = Order.calculate_return_deadline (Order.save x) := rfl

/-! ## C2: return-deadline derivation invariant -/

/-- C2: after every Order.save the return deadline equals delivery date plus
window when both are set and is none when the delivery date is absent, and any
value assigned to return_deadline before the save (in particular a
delivery-stage extracted deadline) is overwritten by the recomputation; every
merge result carries the recomputed deadline. -/
theorem spec_C2_return_deadline_derivation (o : Order) (r : Option Int) :
    (o.delivery_date = none →
      (Order.save { o with return_deadline := r }).return_deadline = none)
  ∧ (∀ d : Int, o.delivery_date = some d → o.return_window_days ≠ 0 →
      (Order.save { o with return_deadline := r }).return_deadline
        = some (d + o.return_window_days))
  ∧ (∀ pd et, (update_order_from_email o pd et).return_deadline
      = Order.calculate_return_deadline (update_order_from_email o pd et)) := by
  refine ⟨?_, ?_, ?_⟩
  · intro h
    simp [Order.save, Order.calculate_return_deadline, h]
  · intro d hd hw
    simp [Order.save, Order.calculate_return_deadline, hd, hw]
  · intro pd et
    unfold update_order_from_email
    exact Order.save_return_deadline_recomputed _

/-- C2 witness: a delivery date of day 9 with a 30-day window yields deadline
day 39 regardless of a previously assigned deadline, and an order with no
delivery date gets none. -/
theorem spec_C2_return_deadline_derivation_witness :
    (Order.save { { baseOrder with delivery_date := some 9 } with
        return_deadline := some 99 }).return_deadline = some (9 + 30)
  ∧ (Order.save { baseOrder with return_deadline := some 5 }).return_deadline = none :=
  ⟨(spec_C2_return_deadline_derivation { baseOrder with delivery_date := some 9 }
      (some 99)).2.1 9 rfl (by decide),
   (spec_C2_return_deadline_derivation baseOrder (some 5)).1 rfl⟩

/-! ## C10: total recomputation by the product signals -/

/-- C10: both signal handlers recompute the order total as the sum of
price times quantity over the order's products, regardless of any total that a
merge stage wrote directly, and every product upsert of the creation path ends
with the total equal to the product sum. -/
theorem spec_C10_total_signal (o : Order) (t : ℚ) :
    (update_order_total_on_product_save { o with total_amount := t }).total_amount
      = (o.products.map (fun p => p.product_price * (p.product_quantity : ℚ))).sum
  ∧ (update_order_total_on_product_delete { o with total_amount := t }).total_amount
      = (o.products.map (fun p => p.product_price * (p.product_quantity : ℚ))).sum
  ∧ (update_order_total_on_product_save { o with total_amount := t }).products = o.products
  ∧ ∀ p, (upsertProduct o p).total_amount
      = ((upsertProduct o p).products.map
          (fun q => q.product_price * (q.product_quantity : ℚ))).sum := by
  refine ⟨rfl, rfl, rfl, ?_⟩
  intro p
  unfold upsertProduct
  split <;> rfl

/-! ## C9: return state machine guards -/

/-- A product whose return was requested and whose deadline (day 10) has
passed by day 20. -/
def productC9 : OrderProduct :=
  { product_name := "X", product_size := "M", product_quantity := 1, product_price := 100,
    seller_name := "", return_deadline := some 10, return_status := "return_requested",
    return_requested_at := some 0, returned_at := none, return_reason := "" }

/-- C9 counterexample: mark_returned moves return_requested to returned even
though today (20) is after the computed deadline (10) — the claimed deadline
guard on that transition does not exist in the code. -/
theorem spec_C9_state_machine_counterexample :
    OrderProduct.calculate_return_deadline productC9 baseOrder = some 10
  ∧ ((10 : Int) < 20)
  ∧ (OrderProduct.mark_returned productC9 baseOrder 20).1 = true
  ∧ (OrderProduct.mark_returned productC9 baseOrder 20).2.return_status = "returned" :=
  ⟨rfl, by decide, rfl, rfl⟩

theorem can_return_iff (p : OrderProduct) (ord : Order) (today : Int) :
    p.can_return ord today = true ↔
      (¬ p.return_status = "returned" ∧ ¬ p.return_status = "return_rejected" ∧
        ∃ d, p.calculate_return_deadline ord = some d ∧ today ≤ d) := by
  unfold OrderProduct.can_return
  by_cases h1 : p.return_status = "returned"
  · simp [h1]
  · by_cases h2 : p.return_status = "return_rejected"
    · simp [h1, h2]
    · cases hd : p.calculate_return_deadline ord with
      | none => simp [h1, h2, hd]
      | some d => simp [h1, h2, hd]

/-- C9 amended: request_return succeeds exactly when the status is not
terminal and today is on or before the computed deadline (the product's own
deadline if set, else the order's delivery date plus window), and then moves
the status to return_requested; mark_returned succeeds exactly when the status
is return_requested, with no deadline guard, and then moves it to returned. -/
theorem spec_C9_state_machine_amended (p : OrderProduct) (ord : Order)
    (today now : Int) (reason : String) :
    ((p.request_return ord today now reason).1 = true ↔
      (¬ p.return_status = "returned" ∧ ¬ p.return_status = "return_rejected" ∧
        ∃ d, p.calculate_return_deadline ord = some d ∧ today ≤ d))
  ∧ ((p.request_return ord today now reason).1 = true →
      (p.request_return ord today now reason).2.return_status = "return_requested")
  ∧ ((p.mark_returned ord now).1 = true ↔ p.return_status = "return_requested")
  ∧ ((p.mark_returned ord now).1 = true →
      (p.mark_returned ord now).2.return_status = "returned") := by
  have hreq : (p.request_return ord today now reason).1 = p.can_return ord today := by
    unfold OrderProduct.request_return; split <;> simp_all
  have hmark : (p.mark_returned ord now).1 = (p.return_status == "return_requested") := by
    unfold OrderProduct.mark_returned; split <;> simp_all
  refine ⟨by rw [hreq]; exact can_return_iff p ord today, ?_, ?_, ?_⟩
  · intro h
    unfold OrderProduct.request_return
    rw [hreq] at h
    simp only [h, if_true, OrderProduct.save_return_status]
  · rw [hmark]; exact beq_iff_eq
  · intro h
    unfold OrderProduct.mark_returned
    rw [hmark] at h
    simp only [h, if_true, OrderProduct.save_return_status]

/-- A not-yet-returned product with deadline day 10. -/
def productC9w : OrderProduct := { productC9 with return_status := "not_returned" }

/-- C9 witness: on day 5 (before the day-10 deadline) request_return succeeds
and sets return_requested; mark_returned on a return_requested product succeeds
and sets returned. -/
theorem spec_C9_state_machine_amended_witness :
    (productC9w.request_return baseOrder 5 0 "").1 = true
  ∧ (productC9w.request_return baseOrder 5 0 "").2.return_status = "return_requested"
  ∧ (productC9.mark_returned baseOrder 0).1 = true
  ∧ (productC9.mark_returned baseOrder 0).2.return_status = "returned" := by
  have h := spec_C9_state_machine_amended productC9w baseOrder 5 0 ""
  have h2 := spec_C9_state_machine_amended productC9 baseOrder 5 0 ""
  have hr : (productC9w.request_return baseOrder 5 0 "").1 = true :=
    h.1.mpr ⟨by decide, by decide, 10, rfl, by decide⟩
  have hm : (productC9.mark_returned baseOrder 0).1 = true := h2.2.2.1.mpr rfl
  exact ⟨hr, h.2.1 hr, hm, h2.2.2.2 hm⟩

/-! ## C4: reconciliation abstention -/

/-- A parsed record with a merchant name and an order date but no order id. -/
def pdC4 : ParsedData := { merchant_name := some "H&M", order_date := some 0 }

/-- C4 counterexample: a record that has a merchant name and a usable order
date but no external order id is abstained on (the code requires both the
order id and the merchant name, not one of them), contradicting the claim
that only a record lacking both is abstained on. -/
theorem spec_C4_abstention_counterexample :
    truthyStr pdC4.merchant_name = true
  ∧ truthyDate pdC4.order_date = true
  ∧ create_or_update_order [] pdC4 = (none, []) :=
  ⟨rfl, rfl, rfl⟩

/-- C4 amended: reconcile abstains (returns none and leaves the order table
unchanged) exactly when the record lacks an external order id or lacks a
merchant name, or when no existing order matches and the record lacks any date
usable as an order date (order date, else shipping date, else delivery date);
a matched existing order is updated regardless of dates. -/
theorem spec_C4_abstention_amended (db : List Order) (pd : ParsedData) :
    ((create_or_update_order db pd).1 = none ↔
      (truthyStr pd.order_id = false ∨ truthyStr pd.merchant_name = false ∨
        (db.find? (matchesExisting (pd.order_id.getD "") (pd.merchant_name.getD "")) = none ∧
          pd.order_date = none ∧ pd.shipping_date = none ∧ pd.delivery_date = none)))
  ∧ ((create_or_update_order db pd).1 = none → (create_or_update_order db pd).2 = db) := by
  by_cases ho : truthyStr pd.order_id = true
  case neg =>
    have ho' : truthyStr pd.order_id = false := by simpa using ho
    constructor
    · unfold create_or_update_order
      simp [ho']
    · intro _; unfold create_or_update_order; simp [ho']
  case pos =>
    by_cases hm : truthyStr pd.merchant_name = true
    case neg =>
      have hm' : truthyStr pd.merchant_name = false := by simpa using hm
      constructor
      · unfold create_or_update_order
        simp [hm']
      · intro _; unfold create_or_update_order; simp [hm']
    case pos =>
      cases hf : db.find? (matchesExisting (pd.order_id.getD "") (pd.merchant_name.getD ""))
        with
      | some o =>
        constructor
        · unfold create_or_update_order
          simp [ho, hm, hf]
        · intro hres
          exfalso
          unfold create_or_update_order at hres
          simp [ho, hm, hf] at hres
      | none =>
        have hcreate : create_new_order_from_email pd = none ↔
            (pd.order_date = none ∧ pd.shipping_date = none ∧ pd.delivery_date = none) := by
          unfold create_new_order_from_email
          have hm' : (truthyStr pd.merchant_name = false) = False := by simp [hm]
          cases h1 : pd.order_date <;> cases h2 : pd.shipping_date <;>
            cases h3 : pd.delivery_date <;>
            simp [hm, h1, h2, h3, Option.orElse]
        constructor
        · unfold create_or_update_order
          cases hc : create_new_order_from_email pd with
          | some o2 =>
            have hnotall : ¬ (pd.order_date = none ∧ pd.shipping_date = none ∧
                pd.delivery_date = none) := by
              intro hall
              have h0 := hcreate.mpr hall
              rw [hc] at h0
              exact Option.noConfusion h0
            simp [ho, hm, hf, hc]
            intro h1 h2 h3
            exact hnotall ⟨h1, h2, h3⟩
          | none =>
            have hall := hcreate.mp hc
            simp [ho, hm, hf, hc, hall.1, hall.2.1, hall.2.2]
        · intro hres
          unfold create_or_update_order at hres ⊢
          cases hc : create_new_order_from_email pd with
          | some o2 => simp [ho, hm, hf, hc] at hres
          | none => simp [ho, hm, hf, hc]

/-- A parsed record with order id and merchant name but no usable date. -/
def pdC4w : ParsedData := { order_id := some "1", merchant_name := some "M" }

/-- C4 witness: a record carrying an order id and a merchant but no usable
date, against an empty order table, is abstained on and leaves the table
unchanged. -/
theorem spec_C4_abstention_amended_witness :
    (create_or_update_order [] pdC4w).1 = none
  ∧ (create_or_update_order [] pdC4w).2 = [] := by
  have h := spec_C4_abstention_amended [] pdC4w
  have h1 : (create_or_update_order [] pdC4w).1 = none :=
    h.1.mpr (Or.inr (Or.inr ⟨rfl, rfl, rfl, rfl⟩))
  exact ⟨h1, h.2 h1⟩

/-! ## C3: confidence monotonicity -/

theorem updateProductWithPrice_confidence (o : Order) (d : PProduct) :
    (updateProductWithPrice o d).parsed_confidence = o.parsed_confidence
  ∧ (updateProductWithPrice o d).needs_review = o.needs_review := by
  refine ⟨?_, ?_⟩ <;>
    (unfold updateProductWithPrice update_order_total_on_product_save; split_ifs <;> rfl)

theorem update_products_with_prices_confidence (ps : List PProduct) : ∀ o : Order,
    (update_products_with_prices o ps).parsed_confidence = o.parsed_confidence
  ∧ (update_products_with_prices o ps).needs_review = o.needs_review := by
  induction ps with
  | nil => intro o; exact ⟨rfl, rfl⟩
  | cons d rest ih =>
    intro o
    have h1 : update_products_with_prices o (d :: rest)
        = update_products_with_prices (updateProductWithPrice o d) rest := by
      simp [update_products_with_prices]
    rw [h1]
    exact ⟨(ih _).1.trans (updateProductWithPrice_confidence o d).1,
           (ih _).2.trans (updateProductWithPrice_confidence o d).2⟩

theorem update_product_return_deadlines_confidence (o : Order) :
    (update_product_return_deadlines o).parsed_confidence = o.parsed_confidence
  ∧ (update_product_return_deadlines o).needs_review = o.needs_review := by
  refine ⟨?_, ?_⟩ <;>
    (unfold update_product_return_deadlines update_order_total_on_product_save;
      split_ifs <;> rfl)

theorem merge_confirmation_fields_confidence (o : Order) (pd : ParsedData) :
    (merge_confirmation_fields o pd).parsed_confidence = o.parsed_confidence
  ∧ (merge_confirmation_fields o pd).needs_review = o.needs_review := by
  unfold merge_confirmation_fields
  constructor
  · refine ((update_products_with_prices_confidence pd.products _).1).trans ?_
    dsimp only
    split_ifs <;> rfl
  · refine ((update_products_with_prices_confidence pd.products _).2).trans ?_
    dsimp only
    split_ifs <;> rfl

theorem merge_delivery_fields_confidence (o : Order) (pd : ParsedData) :
    (merge_delivery_fields o pd).parsed_confidence = o.parsed_confidence
  ∧ (merge_delivery_fields o pd).needs_review = o.needs_review := by
  unfold merge_delivery_fields
  constructor
  · refine ((update_product_return_deadlines_confidence _).1).trans ?_
    dsimp only
    split_ifs <;> rfl
  · refine ((update_product_return_deadlines_confidence _).2).trans ?_
    dsimp only
    split_ifs <;> rfl

set_option maxHeartbeats 1000000 in
theorem merge_shipping_fields_confidence (o : Order) (pd : ParsedData) :
    (merge_shipping_fields o pd).parsed_confidence = o.parsed_confidence
  ∧ (merge_shipping_fields o pd).needs_review = o.needs_review := by
  unfold merge_shipping_fields
  constructor <;> (dsimp only; split_ifs <;> rfl)

theorem merge_stage_fields_confidence (o : Order) (pd : ParsedData) (et : Option String) :
    (merge_stage_fields o pd et).parsed_confidence = o.parsed_confidence
  ∧ (merge_stage_fields o pd et).needs_review = o.needs_review := by
  unfold merge_stage_fields
  split_ifs
  · exact merge_confirmation_fields_confidence o pd
  · exact merge_delivery_fields_confidence o pd
  · exact merge_shipping_fields_confidence o pd
  · exact ⟨rfl, rfl⟩

theorem update_order_from_email_confidence_formula (o : Order) (pd : ParsedData)
    (et : Option String) :
    (update_order_from_email o pd et).parsed_confidence
      = (if pd.confidence.getD (pd.parsed_confidence.getD 0) > o.parsed_confidence
          then pd.confidence.getD (pd.parsed_confidence.getD 0) else o.parsed_confidence)
  ∧ (update_order_from_email o pd et).needs_review
      = (if pd.confidence.getD (pd.parsed_confidence.getD 0) > o.parsed_confidence
          then decide (pd.confidence.getD (pd.parsed_confidence.getD 0) < 0.7)
          else o.needs_review) := by
  have hm := merge_stage_fields_confidence o pd et
  unfold update_order_from_email
  constructor
  · simp only [hm.1]
    split
    · rfl
    · exact hm.1
  · simp only [hm.1]
    split
    · rfl
    · exact hm.2

/-- C3: a merge update leaves the stored confidence unchanged unless the
incoming record's confidence strictly exceeds it, in which case it is adopted
and needs_review is recomputed as confidence < 0.7; hence confidence never
decreases across updates. -/
theorem spec_C3_confidence_monotonicity (o : Order) (pd : ParsedData) (et : Option String) :
    o.parsed_confidence ≤ (update_order_from_email o pd et).parsed_confidence
  ∧ (pd.confidence.getD (pd.parsed_confidence.getD 0) > o.parsed_confidence →
      (update_order_from_email o pd et).parsed_confidence
          = pd.confidence.getD (pd.parsed_confidence.getD 0)
    ∧ (update_order_from_email o pd et).needs_review
          = decide (pd.confidence.getD (pd.parsed_confidence.getD 0) < 0.7))
  ∧ (¬ pd.confidence.getD (pd.parsed_confidence.getD 0) > o.parsed_confidence →
      (update_order_from_email o pd et).parsed_confidence = o.parsed_confidence
    ∧ (update_order_from_email o pd et).needs_review = o.needs_review) := by
  have hf := update_order_from_email_confidence_formula o pd et
  by_cases hgt : pd.confidence.getD (pd.parsed_confidence.getD 0) > o.parsed_confidence
  · refine ⟨?_, fun _ => ⟨?_, ?_⟩, fun hn => absurd hgt hn⟩
    · rw [hf.1, if_pos hgt]; exact le_of_lt hgt
    · rw [hf.1, if_pos hgt]
    · rw [hf.2, if_pos hgt]
  · refine ⟨?_, fun hy => absurd hy hgt, fun _ => ⟨?_, ?_⟩⟩
    · rw [hf.1, if_neg hgt]
    · rw [hf.1, if_neg hgt]
    · rw [hf.2, if_neg hgt]

/-- An order with stored confidence one half. -/
def orderHalf : Order := { baseOrder with parsed_confidence := 0.5 }

/-- A record with confidence above the stored value. -/
def pdHigh : ParsedData := { confidence := some 0.99 }

/-- A record with confidence below the stored value. -/
def pdLow : ParsedData := { confidence := some 0.1 }

/-- C3 witness: a higher incoming confidence (0.99 over 0.5) is adopted and
clears needs_review; a lower one (0.1) leaves confidence and flag unchanged. -/
theorem spec_C3_confidence_monotonicity_witness :
    (update_order_from_email orderHalf pdHigh none).parsed_confidence = 0.99
  ∧ (update_order_from_email orderHalf pdHigh none).needs_review = false
  ∧ (update_order_from_email orderHalf pdLow none).parsed_confidence = 0.5
  ∧ (update_order_from_email orderHalf pdLow none).needs_review = false := by
  have h1 := (spec_C3_confidence_monotonicity orderHalf pdHigh none).2.1
    (by with_unfolding_all decide)
  have h2 := (spec_C3_confidence_monotonicity orderHalf pdLow none).2.2
    (by with_unfolding_all decide)
  exact ⟨h1.1, h1.2.trans (by with_unfolding_all decide), h2.1, h2.2⟩

/-! ## C1: stage-ordering total preservation scenario -/

/-- Confirmation-stage record: amount 1200, order date day 0 (2025-01-01). -/
def pdConfC1 : ParsedData :=
  { order_id := some "123", email_type := some "confirmation", merchant_name := some "H&M",
    amount := some 1200, order_date := some 0, confidence := some 0.95 }

/-- Delivery-stage record for the same order id: delivery date day 9
(2025-01-10), no extracted return deadline, amount 950 (item sum only). -/
def pdDelivC1 : ParsedData :=
  { order_id := some "123", email_type := some "delivery", merchant_name := some "H&M",
    amount := some 950, delivery_date := some 9, confidence := some 0.9 }

set_option maxRecDepth 4000 in
set_option maxHeartbeats 1000000 in
/-- C1: reconciling the confirmation record and then the delivery record for
the same order leaves total_amount at 1200 (the delivery amount 950 is written
only when no total is stored), sets the delivery date, and derives
return_deadline as delivery date + return window (9 + 30). -/
theorem spec_C1_stage_ordering :
    ((create_or_update_order (create_or_update_order [] pdConfC1).2 pdDelivC1).1.map
        (fun o => (o.total_amount, o.delivery_date, o.return_window_days, o.return_deadline)))
      = some (1200, some 9, 30, some (9 + 30))
  ∧ (950 : ℚ) ≠ 1200 := by
  constructor
  · with_unfolding_all decide
  · with_unfolding_all decide

/-! ## C8: product upsert identity key -/

/-- An existing line item (name X, size M, quantity 2, price 100). -/
def productC8 : OrderProduct :=
  { product_name := "X", product_size := "M", product_quantity := 2, product_price := 100,
    seller_name := "", return_deadline := some 40, return_status := "not_returned",
    return_requested_at := none, returned_at := none, return_reason := "" }

/-- An order holding that single line item. -/
def orderC8 : Order := { baseOrder with products := [productC8], total_amount := 200 }

/-- A confirmation record with one product of the same name but a different
size (L) and a lower price (80). -/
def pdC8 : ParsedData :=
  { email_type := some "confirmation",
    products := [{ name := "X", size := "L", quantity := 3, price := 80, seller := "" }] }

/-- C8 counterexample: the confirmation merge matches by product name alone —
the incoming ("X","L") record is merged into the stored ("X","M") item rather
than creating a new line item, and the stored price 100 is overwritten by the
lower price 80, and the quantity is not summed; the claimed (name, size) key
and strictly-higher price rule do not hold on this path. -/
theorem spec_C8_product_upsert_counterexample :
    (update_order_from_email orderC8 pdC8 (some "confirmation")).products
      = [{ productC8 with product_price := 80 }]
  ∧ (pdC8.products.map (fun p => p.size)) = ["L"]
  ∧ productC8.product_size = "M"
  ∧ ((80 : ℚ) < 100) := by
  refine ⟨?_, ?_, ?_, ?_⟩ <;> with_unfolding_all decide

/-- C8 amended: during order creation the deduplication key is the single
string "name|size" — on a key hit quantities are summed and the price is
replaced only when the incoming price strictly exceeds the stored one, with
stored prices rounded to two decimals (half-even); distinct keys are never
merged, but distinct (name, size) pairs whose components contain '|' can
share a key and are then merged.  During confirmation-stage merges an
incoming product is matched to a line item by product name alone, its price
overwrites the stored one unconditionally whenever the incoming price is
non-zero (quantities are not summed), and a new line item is created only
when no name match exists and the name is non-empty. -/
theorem spec_C8_product_upsert_amended :
    (∀ (n s : String) (q1 q2 : Int) (p1 p2 : ℚ) (sel1 sel2 : String),
      uniqueProducts
          [{ name := n, size := s, quantity := q1, price := p1, seller := sel1 },
           { name := n, size := s, quantity := q2, price := p2, seller := sel2 }]
        = [{ name := n, size := s, quantity := q1 + q2,
             price := if p2 > quantize2 p1 then quantize2 p2 else quantize2 p1,
             seller := sel1 }])
  ∧ (∀ p q : PProduct, dedupKey p ≠ dedupKey q →
      uniqueProducts [p, q]
        = [{ p with price := quantize2 p.price }, { q with price := quantize2 q.price }])
  ∧ (((("a|" : String), ("b" : String)) ≠ (("a" : String), ("|b" : String)))
      ∧ uniqueProducts
          [{ name := "a|", size := "b", quantity := 1, price := 10, seller := "s" },
           { name := "a", size := "|b", quantity := 2, price := 30, seller := "t" }]
        = [{ name := "a|", size := "b", quantity := 3, price := 30, seller := "s" }])
  ∧ (∀ (o : Order) (d : PProduct) (x : OrderProduct) (rest : List OrderProduct),
      o.products = x :: rest → x.product_name = d.name → d.price ≠ 0 →
      ∃ x', (updateProductWithPrice o d).products = x' :: rest
        ∧ x'.product_price = d.price ∧ x'.product_quantity = x.product_quantity
        ∧ x'.product_name = x.product_name ∧ x'.product_size = x.product_size)
  ∧ (∀ (o : Order) (d : PProduct),
      o.products.any (fun q => q.product_name == d.name) = false → d.name ≠ "" →
      (updateProductWithPrice o d).products.length = o.products.length + 1) := by
  refine ⟨?_, ?_, ⟨by decide, by with_unfolding_all decide⟩, ?_, ?_⟩
  · intro n s q1 q2 p1 p2 sel1 sel2
    simp [uniqueProducts, mergeIntoUnique, dedupKey]
  · intro p q h
    simp only [uniqueProducts, List.foldl, mergeIntoUnique]
    rw [if_neg]
    intro hk
    exact h hk
  · intro o d x rest hprod hname hprice
    have hany : o.products.any (fun q => q.product_name == d.name) = true := by
      rw [hprod]; simp [hname]
    unfold updateProductWithPrice
    rw [if_pos hany, if_pos hprice]
    refine ⟨OrderProduct.save { x with product_price := d.price } o, ?_, ?_, ?_, ?_, ?_⟩
    · show (replaceFirstBy _ _ o.products) = _
      rw [hprod]
      unfold replaceFirstBy
      rw [if_pos (by simp [hname])]
    · exact OrderProduct.save_product_price _ _
    · exact OrderProduct.save_product_quantity _ _
    · exact OrderProduct.save_product_name _ _
    · exact OrderProduct.save_product_size _ _
  · intro o d hany hname
    unfold updateProductWithPrice
    rw [if_neg (by simp [hany]), if_pos hname]
    show (o.products ++ [_]).length = _
    simp

/-- Two products differing in size. -/
def pW1 : PProduct := { name := "A", size := "M", quantity := 1, price := 10, seller := "s" }

/-- Second product of the pair, same name, size L. -/
def pW2 : PProduct := { name := "A", size := "L", quantity := 2, price := 30, seller := "t" }

/-- A product record with a fresh name. -/
def dW : PProduct := { name := "New", size := "", quantity := 1, price := 5, seller := "" }

/-- The incoming ("X","L") record of the C8 scenario. -/
def dL : PProduct := { name := "X", size := "L", quantity := 3, price := 80, seller := "" }

/-- C8 witness: creation-path dedup keeps products with distinct "name|size"
keys apart (their prices two-decimal quantized); a name-only match overwrites
the first item's price with 80 and keeps its quantity and size; a fresh name
appends a new line item. -/
theorem spec_C8_product_upsert_amended_witness :
    uniqueProducts [pW1, pW2]
      = [{ pW1 with price := quantize2 pW1.price }, { pW2 with price := quantize2 pW2.price }]
  ∧ (updateProductWithPrice baseOrder dW).products.length = baseOrder.products.length + 1
  ∧ (∃ x', (updateProductWithPrice orderC8 dL).products = x' :: []
      ∧ x'.product_price = dL.price ∧ x'.product_quantity = productC8.product_quantity
      ∧ x'.product_name = productC8.product_name ∧ x'.product_size = productC8.product_size) := by
  have h := spec_C8_product_upsert_amended
  refine ⟨?_, ?_, ?_⟩
  · exact h.2.1 pW1 pW2 (by decide)
  · exact h.2.2.2.2 baseOrder dW (by decide) (by decide)
  · exact h.2.2.2.1 orderC8 dL productC8 [] rfl rfl (by with_unfolding_all decide)

/-! ## C6: classifier totality and priority -/

/-- The disjunction of the eight structural-marker checks of the detector. -/
def hasStructuralMarker (doc : DetectorDoc) : Bool :=
  doc.spanIds.contains "AvailableTillDateId" ||
  doc.spanIds.contains "OrderDeliveredDateId" ||
  doc.spanIds.contains "CourierDisplayNameId" ||
  doc.spanIds.any (fun i => strContains i.toLower "tracking") ||
  (doc.liIds.contains "OrderId" && strContains doc.text.toLower "shipped") ||
  doc.liIds.contains "OrderId" ||
  doc.spanIds.contains "PacketCreationTimeId" ||
  doc.spanIds.contains "CustomerPromiseTimeId"

theorem detect_email_type_no_marker (doc : DetectorDoc)
    (hns : hasStructuralMarker doc = false) :
    detect_email_type doc =
      (match EMAIL_TYPE_PATTERNS.find?
          (fun cat => cat.2.any (fun p => strContains doc.text.toLower p)) with
        | some cat => cat.1
        | none => "unknown") := by
  simp only [hasStructuralMarker, Bool.or_eq_false_iff, Bool.and_eq_false_iff] at hns
  obtain ⟨⟨⟨⟨⟨⟨⟨h1, h2⟩, h3⟩, h4⟩, h5⟩, h6⟩, h7⟩, h8⟩ := hns
  simp at h1 h2 h3 h4 h6 h7 h8
  simp [detect_email_type, h1, h2, h3, h4, h6, h7, h8]
  intro x hx hc
  exact absurd (h4 x hx) (by simp [hc])

/-- C6: classification is total (always one of the four stages) and
deterministic by construction; the structural-marker checks take priority
(a document carrying the AvailableTillDateId span is classified delivery no
matter what its text says); when no structural marker fires, the keyword
dictionaries are scanned in the order confirmation, shipping, delivery with
the first category containing a present phrase winning, else unknown. -/
theorem spec_C6_classifier (doc : DetectorDoc) :
    (detect_email_type doc = "confirmation" ∨ detect_email_type doc = "shipping" ∨
     detect_email_type doc = "delivery" ∨ detect_email_type doc = "unknown")
  ∧ (doc.spanIds.contains "AvailableTillDateId" = true → detect_email_type doc = "delivery")
  ∧ (hasStructuralMarker doc = false →
      ((anyPhrase doc.text.toLower confirmationPhrases = true →
          detect_email_type doc = "confirmation")
       ∧ (anyPhrase doc.text.toLower confirmationPhrases = false →
          anyPhrase doc.text.toLower shippingPhrases = true →
          detect_email_type doc = "shipping")
       ∧ (anyPhrase doc.text.toLower confirmationPhrases = false →
          anyPhrase doc.text.toLower shippingPhrases = false →
          anyPhrase doc.text.toLower deliveryPhrases = true →
          detect_email_type doc = "delivery")
       ∧ (anyPhrase doc.text.toLower confirmationPhrases = false →
          anyPhrase doc.text.toLower shippingPhrases = false →
          anyPhrase doc.text.toLower deliveryPhrases = false →
          detect_email_type doc = "unknown"))) := by
  refine ⟨?_, ?_, ?_⟩
  · unfold detect_email_type
    split_ifs <;> try tauto
    cases hfind : EMAIL_TYPE_PATTERNS.find?
        (fun cat => cat.2.any (fun p => strContains doc.text.toLower p)) with
    | none => tauto
    | some cat =>
      have hmem := List.mem_of_find?_eq_some hfind
      simp only [EMAIL_TYPE_PATTERNS, List.mem_cons, List.mem_singleton] at hmem
      rcases hmem with h | h | h | h <;> (try subst h) <;> simp_all
  · intro h
    unfold detect_email_type
    rw [if_pos h]
  · intro hns
    refine ⟨?_, ?_, ?_, ?_⟩
    · intro hc
      rw [detect_email_type_no_marker doc hns]
      simp only [anyPhrase] at hc
      simp [EMAIL_TYPE_PATTERNS, List.find?, hc]
    · intro hc hs
      rw [detect_email_type_no_marker doc hns]
      simp only [anyPhrase] at hc hs
      simp [EMAIL_TYPE_PATTERNS, List.find?, hc, hs]
    · intro hc hs hd
      rw [detect_email_type_no_marker doc hns]
      simp only [anyPhrase] at hc hs hd
      simp [EMAIL_TYPE_PATTERNS, List.find?, hc, hs, hd]
    · intro hc hs hd
      rw [detect_email_type_no_marker doc hns]
      simp only [anyPhrase] at hc hs hd
      simp [EMAIL_TYPE_PATTERNS, List.find?, hc, hs, hd]

/-- A delivery-marker document whose text also carries a confirmation phrase. -/
def docMarker : DetectorDoc :=
  { spanIds := ["AvailableTillDateId"], liIds := [], text := "Your order confirmed. Enjoy!" }

/-- A markerless document with a confirmation phrase. -/
def docConf : DetectorDoc := { spanIds := [], liIds := [], text := "Order Placed today" }

/-- A markerless document with only a delivery phrase. -/
def docDeliv : DetectorDoc := { spanIds := [], liIds := [], text := "it was Delivered on Monday" }

/-- A markerless document with no phrase at all. -/
def docNone : DetectorDoc := { spanIds := [], liIds := [], text := "hello there" }

/-- C6 witness: the structural delivery marker wins over confirmation text;
keyword classification yields confirmation, delivery, and unknown on concrete
markerless documents. -/
theorem spec_C6_classifier_witness :
    detect_email_type docMarker = "delivery"
  ∧ detect_email_type docConf = "confirmation"
  ∧ detect_email_type docDeliv = "delivery"
  ∧ detect_email_type docNone = "unknown" := by
  refine ⟨?_, ?_, ?_, ?_⟩
  · exact (spec_C6_classifier docMarker).2.1 (by with_unfolding_all decide)
  · exact ((spec_C6_classifier docConf).2.2 (by with_unfolding_all decide)).1
      (by with_unfolding_all decide)
  · exact ((spec_C6_classifier docDeliv).2.2 (by with_unfolding_all decide)).2.2.1
      (by with_unfolding_all decide) (by with_unfolding_all decide) (by with_unfolding_all decide)
  · exact ((spec_C6_classifier docNone).2.2 (by with_unfolding_all decide)).2.2.2
      (by with_unfolding_all decide) (by with_unfolding_all decide) (by with_unfolding_all decide)

/-! ## Price-regex machinery (the pattern [currency]\s*([0-9,]+\.?[0-9]{0,2})
used throughout hm.py, scanned left to right like re.search / re.finditer) -/

/-- The capture group [0-9,]+\.?[0-9]{0,2} anchored at the current position
(greedy, at most two fractional digits). -/
def priceGroupAt (cs : List Char) : Option (List Char) :=
  let digs := cs.takeWhile (fun c => c.isDigit || c == ',')
  if digs.isEmpty then none
  else
    match cs.drop digs.length with
    | '.' :: tl => some (digs ++ '.' :: ((tl.takeWhile Char.isDigit).take 2))
    | _ => some digs

/-- After a currency sign: \s* then the capture group; returns the consumed
length (whitespace plus group) and the group. -/
def priceTailMatch (rest : List Char) : Option (Nat × List Char) :=
  let ws := rest.takeWhile isWsC
  match priceGroupAt (rest.drop ws.length) with
  | some g => some (ws.length + g.length, g)
  | none => none

/-- All matches with start and end character positions and the capture group,
in order (re.finditer: scanning resumes after each match). -/
def findAllPricesAux : List Char → Nat → List (Nat × Nat × List Char)
  | [], _ => []
  | c :: rest, pos =>
    if c == '₹' || c == '$' then
      match priceTailMatch rest with
      | some (n, g) =>
        (pos, pos + 1 + n, g) :: findAllPricesAux (rest.drop n) (pos + 1 + n)
      | none => findAllPricesAux rest (pos + 1)
    else findAllPricesAux rest (pos + 1)
  termination_by cs _ => cs.length
  decreasing_by
    · simp [List.length_drop]; omega
    · simp
    · simp

/-- re.finditer over a text. -/
def findAllPrices (cs : List Char) : List (Nat × Nat × List Char) := findAllPricesAux cs 0

/-- re.search: the first match. -/
def findFirstPrice (cs : List Char) : Option (Nat × Nat × List Char) := (findAllPrices cs).head?

/-- Digits to a natural number. -/
def natOfDigits (ds : List Char) : Nat := ds.foldl (fun n c => 10 * n + (c.toNat - 48)) 0

/-- Decimal(group.replace(comma, empty)): fails (raising, modelled as none)
when no digits remain; the quantize to two places in the source is exact
because the regex group carries at most two fractional digits. -/
def decimalParse (g : List Char) : Option ℚ :=
  let cs := g.filter (fun c => c != ',')
  let intPart := cs.takeWhile Char.isDigit
  let frac :=
    match cs.drop intPart.length with
    | '.' :: tl => tl
    | _ => []
  if intPart.isEmpty && frac.isEmpty then none
  else some ((natOfDigits intPart : ℚ) + (natOfDigits frac : ℚ) / ((10 : ℚ) ^ frac.length))

/-! ## Size extraction patterns of hm.py -/

/-- Word character for the regex word boundary. -/
def isWordC (c : Char) : Bool := c.isAlpha || c.isDigit || c == '_'

/-- Character class [SMXL] under re.I. -/
def isSmxl (c : Char) : Bool :=
  c == 'S' || c == 'M' || c == 'X' || c == 'L' ||
  c == 's' || c == 'm' || c == 'x' || c == 'l'

/-- re.search of the boundary-delimited one-or-two-letter size code
\b([SMXL]x2)\b with re.I: leftmost match, two letters preferred (greedy). -/
def findSMXLAux : List Char → Bool → Option String
  | [], _ => none
  | c :: rest, atBoundary =>
    if atBoundary && isSmxl c then
      match rest with
      | [] => some (String.mk [c])
      | c2 :: rest2 =>
        if isSmxl c2 then
          match rest2 with
          | [] => some (String.mk [c, c2])
          | c3 :: _ =>
            if !isWordC c3 then some (String.mk [c, c2])
            else findSMXLAux rest (!isWordC c)
        else if !isWordC c2 then some (String.mk [c])
        else findSMXLAux rest (!isWordC c)
    else findSMXLAux rest (!isWordC c)

/-- First size-code match in a text. -/
def findSMXL (s : String) : Option String := findSMXLAux s.toList true

/-- Character class [A-Z0-9\-\.] under re.I. -/
def isSizeClass (c : Char) : Bool := c.isAlpha || c.isDigit || c == '-' || c == '.'

/-- The second size pattern Size[:\s]*([A-Z0-9\-\.]+) anchored here (re.I). -/
def sizeLabelAt (cs : List Char) : Option String :=
  match cs with
  | s :: i :: z :: e :: rest =>
    if (String.mk [s, i, z, e]).toLower == "size" then
      let sep := rest.takeWhile (fun c => c == ':' || isWsC c)
      let grp := (rest.drop sep.length).takeWhile isSizeClass
      if grp.isEmpty then none else some (String.mk grp)
    else none
  | _ => none

/-- re.search of the Size-label pattern. -/
def searchSizeLabel : List Char → Option String
  | [] => none
  | c :: rest =>
    match sizeLabelAt (c :: rest) with
    | some g => some g
    | none => searchSizeLabel rest

/-- Second pattern of the Method-1 size loop with the strip and length cap. -/
def sizeSecondPattern (text : String) : String :=
  match searchSizeLabel text.toList with
  | some g => if (pyStrip g).length ≤ 10 then pyStrip g else ""
  | none => ""

/-- The Method-1 size loop: the SMXL pattern first, else the Size label,
accepting a group of at most ten characters. -/
def sizeFromPatterns (text : String) : String :=
  match findSMXL text with
  | some g => if (pyStrip g).length ≤ 10 then pyStrip g else sizeSecondPattern text
  | none => sizeSecondPattern text

/-- Methods 2 and 3 use only the SMXL pattern, without strip or cap. -/
def sizeSMXLOnly (text : String) : String := (findSMXL text).getD ""

/-! ## Product link recognition (Method 1 of hm.py) -/

/-- Hex digit value for percent decoding. -/
def hexVal (c : Char) : Option Nat :=
  if c.isDigit then some (c.toNat - 48)
  else if 'a' ≤ c ∧ c ≤ 'f' then some (c.toNat - 87)
  else if 'A' ≤ c ∧ c ≤ 'F' then some (c.toNat - 55)
  else none

/-- urllib.parse.unquote, modelled for ASCII percent escapes (non-ASCII byte
sequences are left undecoded; the product-page patterns are pure ASCII). -/
def pyUnquoteAux : List Char → List Char
  | '%' :: a :: b :: rest =>
    match hexVal a, hexVal b with
    | some ha, some hb =>
      let v := 16 * ha + hb
      if v < 128 then Char.ofNat v :: pyUnquoteAux rest
      else '%' :: a :: b :: pyUnquoteAux rest
    | _, _ => '%' :: pyUnquoteAux (a :: b :: rest)
  | c :: rest => c :: pyUnquoteAux rest
  | [] => []

/-- String wrapper for unquote. -/
def pyUnquote (s : String) : String := String.mk (pyUnquoteAux s.toList)

/-- Occurrence of `pat` immediately followed by a digit (patterns 1 and 2). -/
def containsFollowedByDigit (pat : List Char) : List Char → Bool
  | [] => false
  | c :: rest =>
    (startsWithChars pat (c :: rest) &&
      (match (c :: rest).drop pat.length with
        | d :: _ => d.isDigit
        | [] => false)) ||
    containsFollowedByDigit pat rest

/-- Occurrence of `a` somewhere, with `b` occurring after it (pattern 3,
a dot-star between the two literals). -/
def containsThenContains (a b : List Char) : List Char → Bool
  | [] => startsWithChars a [] && containsChars b []
  | c :: rest =>
    (startsWithChars a (c :: rest) && containsChars b ((c :: rest).drop a.length)) ||
    containsThenContains a b rest

/-- The five product-link href patterns of Method 1, under re.I on the
percent-decoded href. -/
def hmIsProductLink (href : String) : Bool :=
  let h := (pyUnquote href).toLower
  containsFollowedByDigit "productpage.".toList h.toList ||
  containsFollowedByDigit "productpage/".toList h.toList ||
  containsThenContains "hm.com".toList "productpage".toList h.toList ||
  strContains h "/productpage/" ||
  strContains h "productpage"

/-! ## The H&M document view and extraction cascade (hm.py extract_products) -/

/-- An anchor with an href: its href, the texts of its nested p elements, its
own text, and the text of its enclosing td/div/table/tr parent (none when it
has no such parent). -/
structure HMLink where
  href : String
  pTexts : List String
  text : String
  parentText : Option String
  deriving Repr, DecidableEq

/-- A table: its whole text and the texts of its tr rows. -/
structure HMTable where
  text : String
  rowTexts : List String
  deriving Repr, DecidableEq

/-- The document view consumed by extract_products: the anchors, the texts of
the rows carrying the pl-articles-table-row class, all tables, all div texts,
and the whole document text. -/
structure HMDoc where
  links : List HMLink
  articleRowTexts : List String
  tables : List HMTable
  divTexts : List String
  text : String
  deriving Repr, DecidableEq

/-- skip_keywords of extract_products, verbatim. -/
def skip_keywords : List String :=
  ["complete the look", "shop by", "women", "men", "kids",
   "download", "android", "ios", "stores", "services",
   "find a store", "contact", "footer", "header",
   "mode of payment", "your details", "we hope",
   "carrier has informed", "tracking", "order number",
   "delivery", "return by", "total", "amount", "delivered by",
   "hm.com", "www.", "http", "https", "unsubscribe",
   "privacy", "terms", "conditions", "copyright",
   "standard delivery", "delivery method", "tracking number",
   "would you like to return", "register return", "have your say",
   "your order has been confirmed", "order confirmed", "order confirmation",
   "thank you for shopping", "thank you for your order",
   "we have received your order", "order has been placed",
   "order placed", "order received", "payment successful",
   "order details", "order summary", "estimated delivery",
   "order value", "shipping & handling", "shipping and handling",
   "subtotal", "grand total", "items total", "item total",
   "shipping charges", "delivery charges", "handling",
   "tax", "gst", "vat", "discount", "coupon"]

/-- financial_terms of is_valid_product_name, verbatim. -/
def financial_terms : List String :=
  ["order value", "shipping", "handling", "subtotal",
   "grand total", "items total", "item total", "total",
   "tax", "gst", "vat", "discount", "coupon", "charges"]

/-- is_valid_product_name of extract_products. -/
def is_valid_product_name (name : String) : Bool :=
  if name == "" || name.length < 3 then false
  else
    let nl := pyStrip name.toLower
    if skip_keywords.any (fun k => strContains nl k) then false
    else if financial_terms.any (fun t => strContains nl t) then false
    else if !(name.toList.any Char.isAlpha) then false
    else if name.toList.all (fun c =>
        c.isDigit || isWsC c || c == '-' || c == '.' || c == ',' || c == '₹' || c == '$') then
      false
    else true

/-- is_duplicate of extract_products: same name and price within one unit. -/
def is_duplicate (products : List PProduct) (name : String) (price : ℚ) : Bool :=
  products.any (fun p => p.name == name && |p.price - price| < 1)

/-- Does the text begin with a currency sign (the caret-anchored check). -/
def startsWithCurrency (s : String) : Bool :=
  match s.toList with
  | c :: _ => c == '₹' || c == '$'
  | [] => false

/-- Method 1 name extraction A: the p elements nested in the link. -/
def m1NameFromPTags (pTexts : List String) : Option String :=
  pTexts.findSome? (fun pt =>
    let t := pyStrip pt
    if t ≠ "" ∧ 5 ≤ t.length ∧ t.length ≤ 80 then
      if skip_keywords.any (fun k => strContains t.toLower k) then none
      else if startsWithCurrency t || pyIsDigit t then none
      else if t.toList.any Char.isAlpha then some t
      else none
    else none)

/-- Method 1 name extraction B: the link text. -/
def m1NameFromLinkText (linkText : String) : Option String :=
  let t := pyStrip linkText
  if t ≠ "" ∧ 3 ≤ t.length ∧ t.length ≤ 80 then
    if skip_keywords.any (fun k => strContains t.toLower k) then none
    else if t.toList.any Char.isAlpha then some t
    else none
  else none

/-- Method 1 name extraction C: the first five stripped lines of the parent. -/
def m1NameFromParent (parentText : String) : Option String :=
  ((strippedLines parentText).take 5).findSome? (fun line =>
    if skip_keywords.any (fun k => strContains line.toLower k) then none
    else if 5 ≤ line.length ∧ line.length ≤ 80 ∧ line.toList.any Char.isAlpha then
      if ¬ pyIsUpper line ∨ 1 < pyWordCount line then some line else none
    else none)

/-- One Method-1 link: the candidate product it contributes, if any. -/
def method1Candidate (products : List PProduct) (link : HMLink) : Option PProduct :=
  if ¬ hmIsProductLink link.href then none
  else
    match link.parentText with
    | none => none
    | some parentText =>
      let product_name :=
        match m1NameFromPTags link.pTexts with
        | some n => some n
        | none =>
          match m1NameFromLinkText link.text with
          | some n => some n
          | none => m1NameFromParent parentText
      match product_name with
      | none => none
      | some name =>
        let price : ℚ :=
          match findFirstPrice parentText.toList with
          | some (_, _, g) => (decimalParse g).getD 0
          | none => 0
        if price > 5000 ∨ price < 50 then none
        else if is_duplicate products name price then none
        else
          let size := sizeFromPatterns parentText
          if name ≠ "" ∧ price > 0 ∧ is_valid_product_name name then
            some { name := name, size := size, quantity := 1, price := price, seller := "H&M" }
          else none

/-- Method 2 name: first acceptable stripped line of the row. -/
def m2Name (rowText : String) : Option String :=
  (strippedLines rowText).findSome? (fun line =>
    if skip_keywords.any (fun k => strContains line.toLower k) then none
    else if 5 ≤ line.length ∧ line.length ≤ 80 ∧ line.toList.any Char.isAlpha then
      if ¬ pyIsDigit line ∧ (¬ pyIsUpper line ∨ 1 < pyWordCount line) then some line
      else none
    else none)

/-- One Method-2 article row: the candidate product it contributes, if any. -/
def method2Candidate (products : List PProduct) (rowText : String) : Option PProduct :=
  match findFirstPrice rowText.toList with
  | none => none
  | some (_, _, g) =>
    match decimalParse g with
    | none => none
    | some price =>
      if price > 5000 ∨ price < 50 then none
      else
        match m2Name rowText with
        | none => none
        | some name =>
          if is_valid_product_name name then
            if is_duplicate products name price then none
            else some { name := name, size := sizeSMXLOnly rowText, quantity := 1,
                        price := price, seller := "H&M" }
          else none

/-- Method 3 name: stripped lines before the price, scanned in reverse. -/
def m3Name (beforePrice : String) : Option String :=
  (strippedLines beforePrice).reverse.findSome? (fun line =>
    if skip_keywords.any (fun k => strContains line.toLower k) then none
    else if 3 ≤ line.length ∧ line.length ≤ 80 ∧ line.toList.any Char.isAlpha then
      if ¬ pyIsUpper line ∨ 1 < pyWordCount line then some line else none
    else none)

/-- One Method-3 table row: the candidate product it contributes, if any. -/
def method3RowCandidate (products : List PProduct) (rowText : String) : Option PProduct :=
  if rowText.length < 10 ∨ rowText.length > 500 then none
  else
    match findFirstPrice rowText.toList with
    | none => none
    | some (start, _, g) =>
      match decimalParse g with
      | none => none
      | some price =>
        if price > 5000 ∨ price < 50 then none
        else
          let beforePrice := pyStrip (String.mk (rowText.toList.take start))
          match m3Name beforePrice with
          | none => none
          | some name =>
            if is_valid_product_name name then
              if is_duplicate products name price then none
              else some { name := name, size := sizeSMXLOnly rowText, quantity := 1,
                          price := price, seller := "H&M" }
            else none

/-- Method 4 name: the last three stripped lines before the price, reversed
(no all-caps restriction in this method). -/
def m4Name (beforePrice : String) : Option String :=
  ((strippedLines beforePrice).reverse.take 3).findSome? (fun line =>
    if skip_keywords.any (fun k => strContains line.toLower k) then none
    else if 5 ≤ line.length ∧ line.length ≤ 80 ∧ line.toList.any Char.isAlpha then some line
    else none)

/-- One Method-4 div: the candidate product it contributes, if any. -/
def method4Candidate (products : List PProduct) (divText : String) : Option PProduct :=
  if divText.length < 10 ∨ divText.length > 500 then none
  else
    match findFirstPrice divText.toList with
    | none => none
    | some (start, _, g) =>
      match decimalParse g with
      | none => none
      | some price =>
        if price > 5000 ∨ price < 50 then none
        else
          let beforePrice := pyStrip (String.mk (divText.toList.take start))
          match m4Name beforePrice with
          | none => none
          | some name =>
            if is_valid_product_name name then
              if is_duplicate products name price then none
              else some { name := name, size := "", quantity := 1,
                          price := price, seller := "H&M" }
            else none

/-- Method 5 name: up to five context lines before the price line. -/
def m5Name (lines : List String) (priceLineIdx : Nat) : Option String :=
  ((lines.take priceLineIdx).drop (priceLineIdx - 5)).findSome? (fun line =>
    if skip_keywords.any (fun k => strContains line.toLower k) then none
    else if 5 ≤ line.length ∧ line.length ≤ 80 ∧ line.toList.any Char.isAlpha then
      if 1 ≤ pyWordCount line ∧ ¬ pyIsDigit line then some line else none
    else none)

/-- One Method-5 price match over the whole text: the candidate product. -/
def method5Candidate (textChars : List Char) (products : List PProduct)
    (m : Nat × Nat × List Char) : Option PProduct :=
  match decimalParse m.2.2 with
  | none => none
  | some price =>
    if price > 5000 ∨ price < 50 then none
    else
      let context := (textChars.take (min textChars.length (m.2.1 + 50))).drop (m.1 - 300)
      let whole := (textChars.take m.2.1).drop m.1
      let lines := strippedLines (String.mk context)
      match lines.findIdx? (fun line => strContains line (String.mk whole)) with
      | none => none
      | some idx =>
        match m5Name lines idx with
        | none => none
        | some name =>
          if is_valid_product_name name then
            if is_duplicate products name price then none
            else some { name := name, size := "", quantity := 1,
                        price := price, seller := "H&M" }
          else none

/-- Append the candidate when one is produced. -/
def candStep {α : Type} (cand : List PProduct → α → Option PProduct)
    (acc : List PProduct) (x : α) : List PProduct :=
  match cand acc x with
  | some p => acc ++ [p]
  | none => acc

/-- Method 3 over one table: skip small tables, then scan its rows. -/
def method3Table (acc : List PProduct) (t : HMTable) : List PProduct :=
  if t.text.length < 20 then acc
  else t.rowTexts.foldl (candStep method3RowCandidate) acc

/-- Methods 1 through 5 in order, each tried only when everything before it
produced nothing. -/
def hmProductsM1 (doc : HMDoc) : List PProduct :=
  doc.links.foldl (candStep method1Candidate) []

def hmProductsAfterM2 (doc : HMDoc) : List PProduct :=
  let ps := hmProductsM1 doc
  if ps.isEmpty then doc.articleRowTexts.foldl (candStep method2Candidate) [] else ps

def hmProductsAfterM3 (doc : HMDoc) : List PProduct :=
  let ps := hmProductsAfterM2 doc
  if ps.isEmpty then doc.tables.foldl method3Table [] else ps

def hmProductsAfterM4 (doc : HMDoc) : List PProduct :=
  let ps := hmProductsAfterM3 doc
  if ps.isEmpty then doc.divTexts.foldl (candStep method4Candidate) [] else ps

def hmProductsAfterM5 (doc : HMDoc) : List PProduct :=
  let ps := hmProductsAfterM4 doc
  if ps.isEmpty then
    (findAllPrices doc.text.toList).foldl (candStep (method5Candidate doc.text.toList)) []
  else ps

/-- The deduplication of extract_products: merge into the first entry with the
same name and a price within one unit (quantities summed, the higher price
kept), else append as a new entry. -/
def dedupMerge : List PProduct → PProduct → List PProduct
  | [], p => [p]
  | q :: rest, p =>
    if q.name == p.name && |q.price - p.price| < 1 then
      { q with quantity := q.quantity + p.quantity,
               price := if p.price > q.price then p.price else q.price } :: rest
    else q :: dedupMerge rest p

/-- The strategies' output after deduplication (final_products before the
placeholder fallback). -/
def hmDedupedProducts (doc : HMDoc) : List PProduct :=
  (hmProductsAfterM5 doc).foldl dedupMerge []

/-- The placeholder product appended when nothing is found. -/
def defaultHMProduct : PProduct :=
  { name := "H&M Product", size := "", quantity := 1, price := 0, seller := "H&M" }

/-- HMHTMLParser.extract_products. -/
def hm_extract_products (doc : HMDoc) : List PProduct :=
  let fp := hmDedupedProducts doc
  if fp.isEmpty then [defaultHMProduct] else fp

/-! ## C5: price plausibility band -/

theorem method1Candidate_band (products : List PProduct) (link : HMLink) (p : PProduct)
    (h : method1Candidate products link = some p) : 50 ≤ p.price ∧ p.price ≤ 5000 := by
  unfold method1Candidate at h
  repeat' first | dsimp only at h | split at h
  all_goals try exact Option.noConfusion h
  all_goals injection h with h2
  all_goals subst h2
  all_goals simp_all [not_or, not_lt]

theorem method2Candidate_band (products : List PProduct) (rowText : String) (p : PProduct)
    (h : method2Candidate products rowText = some p) : 50 ≤ p.price ∧ p.price ≤ 5000 := by
  unfold method2Candidate at h
  repeat' first | dsimp only at h | split at h
  all_goals try exact Option.noConfusion h
  all_goals injection h with h2
  all_goals subst h2
  all_goals simp_all [not_or, not_lt]

theorem method3RowCandidate_band (products : List PProduct) (rowText : String) (p : PProduct)
    (h : method3RowCandidate products rowText = some p) : 50 ≤ p.price ∧ p.price ≤ 5000 := by
  unfold method3RowCandidate at h
  repeat' first | dsimp only at h | split at h
  all_goals try exact Option.noConfusion h
  all_goals injection h with h2
  all_goals subst h2
  all_goals simp_all [not_or, not_lt]

theorem method4Candidate_band (products : List PProduct) (divText : String) (p : PProduct)
    (h : method4Candidate products divText = some p) : 50 ≤ p.price ∧ p.price ≤ 5000 := by
  unfold method4Candidate at h
  repeat' first | dsimp only at h | split at h
  all_goals try exact Option.noConfusion h
  all_goals injection h with h2
  all_goals subst h2
  all_goals simp_all [not_or, not_lt]

theorem method5Candidate_band (textChars : List Char) (products : List PProduct)
    (m : Nat × Nat × List Char) (p : PProduct)
    (h : method5Candidate textChars products m = some p) : 50 ≤ p.price ∧ p.price ≤ 5000 := by
  unfold method5Candidate at h
  repeat' first | dsimp only at h | split at h
  all_goals try exact Option.noConfusion h
  all_goals injection h with h2
  all_goals subst h2
  all_goals simp_all [not_or, not_lt]

theorem candStep_band {α : Type} (cand : List PProduct → α → Option PProduct)
    (hcand : ∀ acc x p, cand acc x = some p → 50 ≤ p.price ∧ p.price ≤ 5000)
    (l : List α) : ∀ acc : List PProduct,
    (∀ p ∈ acc, 50 ≤ p.price ∧ p.price ≤ 5000) →
    ∀ p ∈ l.foldl (candStep cand) acc, 50 ≤ p.price ∧ p.price ≤ 5000 := by
  induction l with
  | nil => intro acc hacc p hp; exact hacc p hp
  | cons x rest ih =>
    intro acc hacc p hp
    refine ih (candStep cand acc x) ?_ p hp
    intro q hq
    unfold candStep at hq
    cases hc : cand acc x with
    | some c =>
      rw [hc] at hq
      rcases List.mem_append.mp hq with h | h
      · exact hacc q h
      · exact (List.mem_singleton.mp h) ▸ hcand acc x c hc
    | none =>
      rw [hc] at hq
      exact hacc q hq

theorem method3Tables_band (l : List HMTable) : ∀ acc : List PProduct,
    (∀ p ∈ acc, 50 ≤ p.price ∧ p.price ≤ 5000) →
    ∀ p ∈ l.foldl method3Table acc, 50 ≤ p.price ∧ p.price ≤ 5000 := by
  induction l with
  | nil => intro acc hacc p hp; exact hacc p hp
  | cons t rest ih =>
    intro acc hacc p hp
    refine ih (method3Table acc t) ?_ p hp
    intro q hq
    unfold method3Table at hq
    split at hq
    · exact hacc q hq
    · exact candStep_band method3RowCandidate
        (fun a x r hh => method3RowCandidate_band a x r hh) t.rowTexts acc hacc q hq

theorem dedupMerge_band (x : PProduct) (hx : 50 ≤ x.price ∧ x.price ≤ 5000) :
    ∀ acc : List PProduct, (∀ q ∈ acc, 50 ≤ q.price ∧ q.price ≤ 5000) →
    ∀ q ∈ dedupMerge acc x, 50 ≤ q.price ∧ q.price ≤ 5000 := by
  intro acc
  induction acc with
  | nil =>
    intro _ q hq
    rw [List.mem_singleton.mp hq]
    exact hx
  | cons a rest ih =>
    intro hacc q hq
    unfold dedupMerge at hq
    split at hq
    · rcases List.mem_cons.mp hq with h | h
      · subst h
        have ha := hacc a (List.mem_cons_self a rest)
        constructor
        · show 50 ≤ (if x.price > a.price then x.price else a.price)
          split_ifs
          · exact hx.1
          · exact ha.1
        · show (if x.price > a.price then x.price else a.price) ≤ 5000
          split_ifs
          · exact hx.2
          · exact ha.2
      · exact hacc q (List.mem_cons_of_mem a h)
    · rcases List.mem_cons.mp hq with h | h
      · subst h
        exact hacc q (List.mem_cons_self q rest)
      · exact ih (fun r hr => hacc r (List.mem_cons_of_mem a hr)) q h

theorem foldl_dedup_band (l : List PProduct) : ∀ acc : List PProduct,
    (∀ p ∈ l, 50 ≤ p.price ∧ p.price ≤ 5000) →
    (∀ q ∈ acc, 50 ≤ q.price ∧ q.price ≤ 5000) →
    ∀ q ∈ l.foldl dedupMerge acc, 50 ≤ q.price ∧ q.price ≤ 5000 := by
  induction l with
  | nil => intro acc _ hacc q hq; exact hacc q hq
  | cons x rest ih =>
    intro acc hl hacc q hq
    refine ih (dedupMerge acc x) (fun p hp => hl p (List.mem_cons_of_mem x hp)) ?_ q hq
    exact dedupMerge_band x (hl x (List.mem_cons_self x rest)) acc hacc

theorem hmProductsAfterM5_band (doc : HMDoc) :
    ∀ p ∈ hmProductsAfterM5 doc, 50 ≤ p.price ∧ p.price ≤ 5000 := by
  have h1 : ∀ p ∈ hmProductsM1 doc, 50 ≤ p.price ∧ p.price ≤ 5000 :=
    candStep_band method1Candidate (fun a x r hh => method1Candidate_band a x r hh)
      doc.links [] (by simp)
  have h2 : ∀ p ∈ hmProductsAfterM2 doc, 50 ≤ p.price ∧ p.price ≤ 5000 := by
    unfold hmProductsAfterM2
    dsimp only
    split
    · exact candStep_band method2Candidate (fun a x r hh => method2Candidate_band a x r hh)
        doc.articleRowTexts [] (by simp)
    · exact h1
  have h3 : ∀ p ∈ hmProductsAfterM3 doc, 50 ≤ p.price ∧ p.price ≤ 5000 := by
    unfold hmProductsAfterM3
    dsimp only
    split
    · exact method3Tables_band doc.tables [] (by simp)
    · exact h2
  have h4 : ∀ p ∈ hmProductsAfterM4 doc, 50 ≤ p.price ∧ p.price ≤ 5000 := by
    unfold hmProductsAfterM4
    dsimp only
    split
    · exact candStep_band method4Candidate (fun a x r hh => method4Candidate_band a x r hh)
        doc.divTexts [] (by simp)
    · exact h3
  unfold hmProductsAfterM5
  dsimp only
  split
  · exact candStep_band (method5Candidate doc.text.toList)
      (fun a x r hh => method5Candidate_band doc.text.toList a x r hh)
      (findAllPrices doc.text.toList) [] (by simp)
  · exact h4

/-- A document whose only financial lines are a tax and a shipping fee. -/
def docFin : HMDoc :=
  { links := [], articleRowTexts := [], tables := [], divTexts := [],
    text := "Tax:\n₹75.00\nShipping:\n₹40.00" }

/-- C5 amended: every product the strategies accept has a price of at least 50
and AT MOST 5000 — the band is inclusive at 5000 (discard happens only for
price > 5000 or price < 50) — and a document whose only candidate labels are
financial-summary lines (tax, shipping) yields zero products from the
strategies, falling back to the zero-priced placeholder. -/
theorem spec_C5_price_band_amended :
    (∀ (doc : HMDoc) (p : PProduct), p ∈ hmDedupedProducts doc →
      50 ≤ p.price ∧ p.price ≤ 5000)
  ∧ hmDedupedProducts docFin = []
  ∧ hm_extract_products docFin = [defaultHMProduct] := by
  refine ⟨?_, ?_, ?_⟩
  · intro doc p hp
    exact foldl_dedup_band (hmProductsAfterM5 doc) []
      (hmProductsAfterM5_band doc) (by simp) p hp
  · with_unfolding_all decide
  · with_unfolding_all decide

/-- A document whose one table row offers a product at exactly 5000. -/
def docC5 : HMDoc :=
  { links := [], articleRowTexts := [],
    tables := [{ text := "Nice Shirt product row!", rowTexts := ["Nice Shirt\n₹5000"] }],
    divTexts := [], text := "" }

/-- The product the generic table scan accepts from docC5. -/
def prod5000 : PProduct :=
  { name := "Nice Shirt", size := "", quantity := 1, price := 5000, seller := "H&M" }

theorem decimalParse_5000 : decimalParse ['5', '0', '0', '0'] = some 5000 := by
  have h1 : (['5', '0', '0', '0'].filter (fun c => c != ',')) = ['5', '0', '0', '0'] := by decide
  have h2 : ['5', '0', '0', '0'].takeWhile Char.isDigit = ['5', '0', '0', '0'] := by decide
  have h3 : natOfDigits ['5', '0', '0', '0'] = 5000 := by decide
  unfold decimalParse
  dsimp only
  rw [h1, h2, h3]
  norm_num [natOfDigits]

set_option maxRecDepth 2500 in
theorem m3cand_docC5 :
    method3RowCandidate [] "Nice Shirt\n₹5000" = some prod5000 := by
  have h1 : findFirstPrice "Nice Shirt\n₹5000".toList
      = some (11, 16, ['5', '0', '0', '0']) := by with_unfolding_all decide
  have h3 : pyStrip (String.mk ("Nice Shirt\n₹5000".toList.take 11)) = "Nice Shirt" := by
    with_unfolding_all decide
  have h4 : m3Name "Nice Shirt" = some "Nice Shirt" := by with_unfolding_all decide
  have h5 : is_valid_product_name "Nice Shirt" = true := by with_unfolding_all decide
  have h6 : is_duplicate [] "Nice Shirt" 5000 = false := by
    unfold is_duplicate
    rfl
  have h7 : sizeSMXLOnly "Nice Shirt\n₹5000" = "" := by with_unfolding_all decide
  unfold method3RowCandidate
  rw [if_neg (by with_unfolding_all decide)]
  rw [h1]
  dsimp only
  rw [decimalParse_5000]
  dsimp only
  rw [if_neg (by norm_num)]
  rw [h3, h4]
  dsimp only
  rw [h5, h6]
  simp only [if_true, ite_true, Bool.false_eq_true, if_false, ite_false]
  rw [h7]
  rfl

theorem hmDeduped_docC5 : hmDedupedProducts docC5 = [prod5000] := by
  have hA : hmProductsM1 docC5 = [] := rfl
  have hB : hmProductsAfterM2 docC5 = [] := by
    unfold hmProductsAfterM2
    dsimp only
    rw [hA]
    rfl
  have hC : hmProductsAfterM3 docC5 = [prod5000] := by
    unfold hmProductsAfterM3
    dsimp only
    rw [hB]
    show method3Table []
      ({ text := "Nice Shirt product row!", rowTexts := ["Nice Shirt\n₹5000"] } : HMTable)
      = [prod5000]
    unfold method3Table
    rw [if_neg (by with_unfolding_all decide)]
    show candStep method3RowCandidate [] "Nice Shirt\n₹5000" = [prod5000]
    unfold candStep
    rw [m3cand_docC5]
    rfl
  have hD : hmProductsAfterM4 docC5 = [prod5000] := by
    unfold hmProductsAfterM4
    dsimp only
    rw [hC]
    rfl
  have hE : hmProductsAfterM5 docC5 = [prod5000] := by
    unfold hmProductsAfterM5
    dsimp only
    rw [hD]
    rfl
  unfold hmDedupedProducts
  rw [hE]
  rfl

/-- C5 counterexample: the generic table scan accepts a product priced exactly
5000 (the code discards only prices strictly above 5000), so the claim that no
accepted product has a price of 5000 or more is false. -/
theorem spec_C5_price_band_counterexample :
    (hmDedupedProducts docC5).map (fun p => p.price) = [5000]
  ∧ ¬ ((5000 : ℚ) < 5000) := by
  constructor
  · rw [hmDeduped_docC5]
    rfl
  · norm_num

/-- C5 witness: the amended band theorem applied to the concrete accepted
product of docC5. -/
theorem spec_C5_price_band_amended_witness :
    50 ≤ prod5000.price ∧ prod5000.price ≤ 5000 :=
  spec_C5_price_band_amended.1 docC5 prod5000
    (by rw [hmDeduped_docC5]; exact List.mem_singleton.mpr rfl)

/-! ## Scanner combinators for the simple anchored regexes of hm.py and
services.py (literal words, whitespace separators, greedy character classes;
for these patterns greedy matching coincides with the regex semantics because
consecutive classes are disjoint, except for the separator-capture overlap
handled explicitly below) -/

/-- Case-insensitive literal: consume it or fail. -/
def eatLiteralCI : List Char → List Char → Option (List Char)
  | [], cs => some cs
  | _ :: _, [] => none
  | l :: ls, c :: cs => if l.toLower == c.toLower then eatLiteralCI ls cs else none

/-- Greedy one-or-more character class: the matched run and the rest. -/
def eatClass1 (p : Char → Bool) (cs : List Char) : Option (List Char × List Char) :=
  let g := cs.takeWhile p
  if g.isEmpty then none else some (g, cs.drop g.length)

/-- Greedy zero-or-more character class. -/
def eatClass0 (p : Char → Bool) (cs : List Char) : List Char × List Char :=
  (cs.takeWhile p, cs.drop (cs.takeWhile p).length)

/-- Optional literal character. -/
def eatOptChar (c : Char) : List Char → List Char
  | x :: rest => if x == c then rest else x :: rest
  | [] => []

/-- re.search: try the anchored matcher at every start position. -/
def reSearch {α : Type} (f : List Char → Option α) : List Char → Option α
  | [] => f []
  | c :: cs =>
    match f (c :: cs) with
    | some a => some a
    | none => reSearch f cs

/-- The class [^.\n] of the date captures. -/
def restClass (c : Char) : Bool := c != '.' && c != '\n'

/-- A one-or-more separator class followed by the capture ([^.\n]+), with the
regex backtracking for the overlap: when nothing capturable follows the
greedy separator run, the capture becomes the last separator character that
is not a newline, provided at least one separator character remains. -/
def eatSepCapture (sepP : Char → Bool) (cs : List Char) : Option (List Char) :=
  let sep := cs.takeWhile sepP
  if sep.isEmpty then none
  else
    let rest := cs.drop sep.length
    let grp := rest.takeWhile restClass
    if grp.isEmpty = false then some grp
    else
      match sep.reverse.dropWhile (fun c => c == '\n') with
      | [] => none
      | c :: rest2 => if rest2.isEmpty then none else some [c]

/-- Separator class [:\s]. -/
def isColonWs (c : Char) : Bool := c == ':' || isWsC c

/-! ## H&M field extractors used by parse_confirmation_email (hm.py) -/

/-- Digit capture after a two-word label and a [:\s]+ separator
(the Order Number / Order ID patterns). -/
def hmOrderPatLabel (lit1 lit2 : String) (cs : List Char) : Option String :=
  (eatLiteralCI lit1.toList cs).bind fun cs =>
  (eatClass1 isWsC cs).bind fun gc =>
  (eatLiteralCI lit2.toList gc.2).bind fun cs =>
  (eatClass1 isColonWs cs).bind fun gc2 =>
  (eatClass1 Char.isDigit gc2.2).map fun gc3 => pyStrip (String.mk gc3.1)

/-- The pattern Order\s+#?\s*(digits). -/
def hmOrderPatHash (cs : List Char) : Option String :=
  (eatLiteralCI "order".toList cs).bind fun cs =>
  (eatClass1 isWsC cs).bind fun gc =>
  (eatClass1 Char.isDigit (eatClass0 isWsC (eatOptChar '#' gc.2)).2).map fun gc2 =>
    pyStrip (String.mk gc2.1)

/-- The pattern Your\s+order\s+(digits). -/
def hmOrderPatYour (cs : List Char) : Option String :=
  (eatLiteralCI "your".toList cs).bind fun cs =>
  (eatClass1 isWsC cs).bind fun gc =>
  (eatLiteralCI "order".toList gc.2).bind fun cs =>
  (eatClass1 isWsC cs).bind fun gc2 =>
  (eatClass1 Char.isDigit gc2.2).map fun gc3 => pyStrip (String.mk gc3.1)

/-- HMHTMLParser.extract_order_id: the four patterns in order. -/
def hm_extract_order_id (doc : HMDoc) : Option String :=
  match reSearch (hmOrderPatLabel "order" "number") doc.text.toList with
  | some g => some g
  | none =>
    match reSearch (hmOrderPatLabel "order" "id") doc.text.toList with
    | some g => some g
    | none =>
      match reSearch hmOrderPatHash doc.text.toList with
      | some g => some g
      | none => reSearch hmOrderPatYour doc.text.toList

/-- A two-word date label followed by [:\s]+ and the [^.\n]+ capture. -/
def hmDatePat (lit1 lit2 : String) (cs : List Char) : Option String :=
  (eatLiteralCI lit1.toList cs).bind fun cs =>
  (eatClass1 isWsC cs).bind fun gc =>
  (eatLiteralCI lit2.toList gc.2).bind fun cs =>
  (eatSepCapture isColonWs cs).map fun g => String.mk g

/-- HMHTMLParser.extract_order_date: on the first pattern match the captured
string is handed to the date resolver (dateparser, modelled by `dp`) and its
result — possibly none — is returned without trying further patterns. -/
def hm_extract_order_date (dp : String → Option Int) (doc : HMDoc) : Option Int :=
  match reSearch (hmDatePat "order" "date") doc.text.toList with
  | some g => dp (pyStrip g)
  | none =>
    match reSearch (hmDatePat "ordered" "on") doc.text.toList with
    | some g => dp (pyStrip g)
    | none =>
      match reSearch (hmDatePat "order" "placed") doc.text.toList with
      | some g => dp (pyStrip g)
      | none => none

/-- After a label: [:\s]+[₹$]?\s*([0-9,]+\.?[0-9]{0,2}). -/
def amountTail (cs : List Char) : Option (List Char) :=
  (eatClass1 isColonWs cs).bind fun gc =>
  let cs :=
    match gc.2 with
    | c :: rest => if c == '₹' || c == '$' then rest else gc.2
    | [] => gc.2
  priceGroupAt (eatClass0 isWsC cs).2

/-- Amount pattern with a single-word label. -/
def hmAmtLabel (lit : String) (cs : List Char) : Option (List Char) :=
  (eatLiteralCI lit.toList cs).bind amountTail

/-- Amount pattern with a two-word label separated by \s+. -/
def hmAmtLabel2 (lit1 lit2 : String) (cs : List Char) : Option (List Char) :=
  (eatLiteralCI lit1.toList cs).bind fun cs =>
  (eatClass1 isWsC cs).bind fun gc =>
  (eatLiteralCI lit2.toList gc.2).bind amountTail

/-- The trailing-total pattern [₹$]\s*(group)\s*Total. -/
def hmAmtTrailing (cs : List Char) : Option (List Char) :=
  match cs with
  | c :: rest =>
    if c == '₹' || c == '$' then
      (priceGroupAt (eatClass0 isWsC rest).2).bind fun g =>
        let after := ((eatClass0 isWsC rest).2).drop g.length
        (eatLiteralCI "total".toList (eatClass0 isWsC after).2).map fun _ => g
    else none
  | [] => none

/-- HMHTMLParser.extract_amount: the three Total/Amount patterns accepting
only values above 100, then the fallback taking the largest price above 100
(aborted entirely when any price group fails to parse). -/
def hm_extract_amount (doc : HMDoc) : Option ℚ :=
  let tryPat := fun (g : Option (List Char)) =>
    match g with
    | some g =>
      match decimalParse g with
      | some a => if a > 100 then some a else none
      | none => none
    | none => none
  match tryPat (reSearch (hmAmtLabel "total") doc.text.toList) with
  | some a => some a
  | none =>
    match tryPat (reSearch (hmAmtLabel "amount") doc.text.toList) with
    | some a => some a
    | none =>
      match tryPat (reSearch hmAmtTrailing doc.text.toList) with
      | some a => some a
      | none =>
        match ((findAllPrices doc.text.toList).map (fun m => m.2.2)).mapM decimalParse with
        | some prices =>
          match prices.filter (fun p => p > 100) with
          | [] => none
          | b :: rest => some (rest.foldl max b)
        | none => none

/-- HMHTMLParser.extract_order_value: Order value / Subtotal / Items total,
accepting values above zero. -/
def hm_extract_order_value (doc : HMDoc) : Option ℚ :=
  let tryPat := fun (g : Option (List Char)) =>
    match g with
    | some g =>
      match decimalParse g with
      | some v => if v > 0 then some v else none
      | none => none
    | none => none
  match tryPat (reSearch (hmAmtLabel2 "order" "value") doc.text.toList) with
  | some v => some v
  | none =>
    match tryPat (reSearch (hmAmtLabel "subtotal") doc.text.toList) with
    | some v => some v
    | none => tryPat (reSearch (hmAmtLabel2 "items" "total") doc.text.toList)

/-- The pattern Shipping\s*&\s*handling followed by the amount tail. -/
def hmShipAmp (cs : List Char) : Option (List Char) :=
  (eatLiteralCI "shipping".toList cs).bind fun cs =>
  match (eatClass0 isWsC cs).2 with
  | '&' :: rest => (eatLiteralCI "handling".toList (eatClass0 isWsC rest).2).bind amountTail
  | _ => none

/-- The pattern Delivery\s+charges? followed by the amount tail. -/
def hmShipCharges (cs : List Char) : Option (List Char) :=
  (eatLiteralCI "delivery".toList cs).bind fun cs =>
  (eatClass1 isWsC cs).bind fun gc =>
  (eatLiteralCI "charge".toList gc.2).bind fun cs =>
  amountTail (eatOptChar 's' cs)

/-- HMHTMLParser.extract_shipping_amount: three patterns accepting values
strictly between zero and ten thousand. -/
def hm_extract_shipping_amount (doc : HMDoc) : Option ℚ :=
  let tryPat := fun (g : Option (List Char)) =>
    match g with
    | some g =>
      match decimalParse g with
      | some v => if 0 < v ∧ v < 10000 then some v else none
      | none => none
    | none => none
  match tryPat (reSearch hmShipAmp doc.text.toList) with
  | some v => some v
  | none =>
    match tryPat (reSearch (hmAmtLabel "shipping") doc.text.toList) with
    | some v => some v
    | none => tryPat (reSearch hmShipCharges doc.text.toList)

/-- HMHTMLParser.distribute_amount_to_products (Decimal division modelled as
exact rational division). -/
def distribute_amount_to_products (products : List PProduct) (total : ℚ) : List PProduct :=
  if products.isEmpty || total == 0 then products
  else products.map (fun p => { p with price := total / (products.length : ℚ) })

/-- The result dictionary of an HTML stage parser (the fields that the
confidence computation and the merger consume; parsed_json is provenance). -/
structure ParsedRec where
  merchant_name : Option String
  order_id : Option String
  order_date : Option Int
  delivery_date : Option Int
  return_deadline : Option Int
  amount : Option ℚ
  shipping_amount : Option ℚ
  products : List PProduct
  tracking_number : Option String
  tracking_url : Option String
  email_type : String
  confidence : ℚ
  deriving Repr

/-- HMHTMLParser.parse_confirmation_email: field extraction, the order-value
redistribution when some products lack prices, and the hard-coded confidence
of 0.95. -/
def hmParseConfirmation (dp : String → Option Int) (doc : HMDoc) : ParsedRec :=
  let products := hm_extract_products doc
  let order_value := hm_extract_order_value doc
  let shipping_amount := hm_extract_shipping_amount doc
  let total_amount := hm_extract_amount doc
  let pwp := products.filter (fun p => p.price > 0)
  let products :=
    if pwp.length < products.length ∧ truthyRat order_value then
      distribute_amount_to_products products (order_value.getD 0)
    else products
  { merchant_name := some "H&M"
    order_id := hm_extract_order_id doc
    order_date := hm_extract_order_date dp doc
    delivery_date := none
    return_deadline := none
    amount := total_amount
    shipping_amount := shipping_amount
    products := products
    tracking_number := none
    tracking_url := none
    email_type := "confirmation"
    confidence := 0.95 }

/-- BaseHTMLParser.calculate_confidence: the weighted sum over populated
fields, capped at one. -/
def calculate_confidence (r : ParsedRec) : ℚ :=
  let c : ℚ := 0
  let c := if truthyStr r.merchant_name then c + 0.1 else c
  let c := if truthyStr r.order_id then c + 0.3 else c
  let c := if r.delivery_date.isSome then c + 0.2 else c
  let c := if r.return_deadline.isSome then c + 0.2 else c
  let c := if !r.products.isEmpty then c + 0.1 else c
  let c := if truthyRat r.amount then c + 0.1 else c
  min c 1

/-! ## Regex fallback parser (parser/services.py EmailParser) -/

/-- merchant_patterns in declaration (= iteration) order; the domain regexes
are case-insensitive literal matches. -/
def merchant_patterns : List (String × String) :=
  [("@flipkart.com", "Flipkart"), ("@amazon.in", "Amazon"), ("@myntra.com", "Myntra"),
   ("@nykaa.com", "Nykaa"), ("@zomato.com", "Zomato"), ("@ajio.com", "Ajio"),
   ("@hm.com", "H&M"), ("@delivery.hm.com", "H&M")]

/-- EmailParser._extract_merchant. -/
def extract_merchant (from_email : String) : Option String :=
  (merchant_patterns.find? (fun pm => strContains from_email.toLower pm.1)).map
    (fun pm => pm.2)

/-- Character class [A-Z0-9\-] under re.I. -/
def isOidC (c : Char) : Bool := c.isAlpha || c.isDigit || c == '-'

/-- The pattern Order\s*#?\s*([A-Z0-9\-]+). -/
def fbOidHash (cs : List Char) : Option String :=
  (eatLiteralCI "order".toList cs).bind fun cs =>
  (eatClass1 isOidC (eatClass0 isWsC (eatOptChar '#' (eatClass0 isWsC cs).2)).2).map fun gc =>
    pyStrip (String.mk gc.1)

/-- The pattern Order\s*ID[:\s]+([A-Z0-9\-]+). -/
def fbOidId (cs : List Char) : Option String :=
  (eatLiteralCI "order".toList cs).bind fun cs =>
  (eatLiteralCI "id".toList (eatClass0 isWsC cs).2).bind fun cs =>
  (eatClass1 isColonWs cs).bind fun gc =>
  (eatClass1 isOidC gc.2).map fun gc2 => pyStrip (String.mk gc2.1)

/-- The pattern Your\s+order\s+([A-Z0-9\-]+). -/
def fbOidYour (cs : List Char) : Option String :=
  (eatLiteralCI "your".toList cs).bind fun cs =>
  (eatClass1 isWsC cs).bind fun gc =>
  (eatLiteralCI "order".toList gc.2).bind fun cs =>
  (eatClass1 isWsC cs).bind fun gc2 =>
  (eatClass1 isOidC gc2.2).map fun gc3 => pyStrip (String.mk gc3.1)

/-- The pattern Order\s+Number[:\s]+([A-Z0-9\-]+). -/
def fbOidNumber (cs : List Char) : Option String :=
  (eatLiteralCI "order".toList cs).bind fun cs =>
  (eatClass1 isWsC cs).bind fun gc =>
  (eatLiteralCI "number".toList gc.2).bind fun cs =>
  (eatClass1 isColonWs cs).bind fun gc2 =>
  (eatClass1 isOidC gc2.2).map fun gc3 => pyStrip (String.mk gc3.1)

/-- The pattern Order\s+([A-Z0-9\-]+). -/
def fbOidPlain (cs : List Char) : Option String :=
  (eatLiteralCI "order".toList cs).bind fun cs =>
  (eatClass1 isWsC cs).bind fun gc =>
  (eatClass1 isOidC gc.2).map fun gc2 => pyStrip (String.mk gc2.1)

/-- EmailParser._extract_order_id: the five patterns in order. -/
def fb_extract_order_id (text : String) : Option String :=
  match reSearch fbOidHash text.toList with
  | some g => some g
  | none =>
    match reSearch fbOidId text.toList with
    | some g => some g
    | none =>
      match reSearch fbOidYour text.toList with
      | some g => some g
      | none =>
        match reSearch fbOidNumber text.toList with
        | some g => some g
        | none => reSearch fbOidPlain text.toList

/-- The pattern Delivered\s+on\s+([^.\n]+). -/
def fbDateDelivered (cs : List Char) : Option String :=
  (eatLiteralCI "delivered".toList cs).bind fun cs =>
  (eatClass1 isWsC cs).bind fun gc =>
  (eatLiteralCI "on".toList gc.2).bind fun cs =>
  (eatSepCapture isWsC cs).map fun g => String.mk g

/-- The pattern placed\s+on\s+([^.\n]+). -/
def fbDatePlacedOn (cs : List Char) : Option String :=
  (eatLiteralCI "placed".toList cs).bind fun cs =>
  (eatClass1 isWsC cs).bind fun gc =>
  (eatLiteralCI "on".toList gc.2).bind fun cs =>
  (eatSepCapture isWsC cs).map fun g => String.mk g

/-- The pattern Order\s+placed[:\s]+([^.\n]+). -/
def fbDateOrderPlaced (cs : List Char) : Option String :=
  (eatLiteralCI "order".toList cs).bind fun cs =>
  (eatClass1 isWsC cs).bind fun gc =>
  (eatLiteralCI "placed".toList gc.2).bind fun cs =>
  (eatSepCapture isColonWs cs).map fun g => String.mk g

/-- The pattern Order\s+date[:\s]+([^.\n]+). -/
def fbDateOrderDate (cs : List Char) : Option String :=
  (eatLiteralCI "order".toList cs).bind fun cs =>
  (eatClass1 isWsC cs).bind fun gc =>
  (eatLiteralCI "date".toList gc.2).bind fun cs =>
  (eatSepCapture isColonWs cs).map fun g => String.mk g

/-- EmailParser._extract_dates: all four patterns are tried (the loop has no
break); a successfully resolved date fills the delivery slot for the pattern
starting with Delivered and the order slot otherwise, later patterns
overwriting earlier ones; (order_date, delivery_date) is returned. -/
def fb_extract_dates (dp : String → Option Int) (text : String) :
    Option Int × Option Int :=
  let step := fun (acc : Option Int × Option Int)
      (pat : (List Char → Option String) × Bool) =>
    match reSearch pat.1 text.toList with
    | some g =>
      match dp (pyStrip g) with
      | some d => if pat.2 then (acc.1, some d) else (some d, acc.2)
      | none => acc
    | none => acc
  [(fbDateDelivered, true), (fbDatePlacedOn, false),
   (fbDateOrderPlaced, false), (fbDateOrderDate, false)].foldl step (none, none)

/-- The unbounded capture group [0-9,]+\.?[0-9]* of the fallback amounts. -/
def priceGroupUnbounded (cs : List Char) : Option (List Char) :=
  let digs := cs.takeWhile (fun c => c.isDigit || c == ',')
  if digs.isEmpty then none
  else
    match cs.drop digs.length with
    | '.' :: tl => some (digs ++ '.' :: tl.takeWhile Char.isDigit)
    | _ => some digs

/-- The pattern [₹$]\s*([0-9,]+\.?[0-9]*). -/
def fbAmtCurrency (cs : List Char) : Option (List Char) :=
  match cs with
  | c :: rest =>
    if c == '₹' || c == '$' then priceGroupUnbounded (eatClass0 isWsC rest).2
    else none
  | [] => none

/-- A labelled amount pattern Label[:\s]+[₹$]?\s*([0-9,]+\.?[0-9]*). -/
def fbAmtLabel (lit : String) (cs : List Char) : Option (List Char) :=
  (eatLiteralCI lit.toList cs).bind fun cs =>
  (eatClass1 isColonWs cs).bind fun gc =>
  let cs :=
    match gc.2 with
    | c :: rest => if c == '₹' || c == '$' then rest else gc.2
    | [] => gc.2
  priceGroupUnbounded (eatClass0 isWsC cs).2

/-- EmailParser._extract_amount: three patterns, first Decimal success wins
(a parse failure moves on to the next pattern). -/
def fb_extract_amount (text : String) : Option ℚ :=
  match (reSearch fbAmtCurrency text.toList) with
  | some g =>
    match decimalParse g with
    | some a => some a
    | none =>
      match (reSearch (fbAmtLabel "amount") text.toList).bind decimalParse with
      | some a => some a
      | none => (reSearch (fbAmtLabel "total") text.toList).bind decimalParse
  | none =>
    match (reSearch (fbAmtLabel "amount") text.toList).bind decimalParse with
    | some a => some a
    | none => (reSearch (fbAmtLabel "total") text.toList).bind decimalParse

/-- The parsed_data dictionary built by _parse_text_fallback. -/
structure FallbackRec where
  merchant_name : Option String
  order_id : Option String
  order_date : Option Int
  delivery_date : Option Int
  amount : Option ℚ
  currency : String
  return_window_days : Int
  parsed_confidence : ℚ
  deriving Repr

/-- EmailParser._calculate_confidence: the fallback weighted sum, capped. -/
def fb_calculate_confidence (r : FallbackRec) : ℚ :=
  let c : ℚ := 0
  let c := if truthyStr r.merchant_name then c + 0.2 else c
  let c := if truthyStr r.order_id then c + 0.3 else c
  let c := if truthyRat r.amount then c + 0.2 else c
  let c := if r.delivery_date.isSome then c + 0.2 else c
  let c := if r.order_date.isSome then c + 0.1 else c
  min c 1

/-- EmailParser._parse_text_fallback: merchant from the sender domain, the
return window from the external MerchantRule table (`rules`, defaulting to
thirty), field extraction, then the confidence computed from the populated
fields.  Setting both date slots unconditionally equals the source's
empty-dict guard because both slots are none when the dict is empty. -/
def parse_text_fallback (dp : String → Option Int) (rules : String → Option Int)
    (raw_text from_email : String) : FallbackRec :=
  let merchant := extract_merchant from_email
  let window :=
    match merchant with
    | some m => (rules m).getD 30
    | none => 30
  let dates := fb_extract_dates dp raw_text
  let amount := fb_extract_amount raw_text
  let r : FallbackRec :=
    { merchant_name := merchant
      order_id := fb_extract_order_id raw_text
      order_date := dates.1
      delivery_date := dates.2
      amount :=
        match amount with
        | some a => if a ≠ 0 then some a else none
        | none => none
      currency := "INR"
      return_window_days := window
      parsed_confidence := 0 }
  { r with parsed_confidence := fb_calculate_confidence r }

/-! ## C7: confidence as a weighted sum -/

theorem calculate_confidence_flat (r : ParsedRec) :
    calculate_confidence r
      = (if truthyStr r.merchant_name then (0.1 : ℚ) else 0)
        + (if truthyStr r.order_id then 0.3 else 0)
        + (if r.delivery_date.isSome then 0.2 else 0)
        + (if r.return_deadline.isSome then 0.2 else 0)
        + (if !r.products.isEmpty then 0.1 else 0)
        + (if truthyRat r.amount then 0.1 else 0)
  ∧ 0 ≤ calculate_confidence r ∧ calculate_confidence r ≤ 1 := by
  unfold calculate_confidence
  dsimp only
  split_ifs <;> norm_num [min_def]

theorem fb_calculate_confidence_flat (r : FallbackRec) :
    fb_calculate_confidence r
      = (if truthyStr r.merchant_name then (0.2 : ℚ) else 0)
        + (if truthyStr r.order_id then 0.3 else 0)
        + (if truthyRat r.amount then 0.2 else 0)
        + (if r.delivery_date.isSome then 0.2 else 0)
        + (if r.order_date.isSome then 0.1 else 0)
  ∧ 0 ≤ fb_calculate_confidence r ∧ fb_calculate_confidence r ≤ 1 := by
  unfold fb_calculate_confidence
  dsimp only
  split_ifs <;> norm_num [min_def]

/-- C7 amended: the base class weighted-sum confidence (weights 0.1, 0.3,
0.2, 0.2, 0.1, 0.1) and the fallback parser's (0.2, 0.3, 0.2, 0.2, 0.1) both
equal the sum over populated fields and lie in the unit interval, and the
fallback record really carries that sum; but the merchant stage parsers
hard-code their confidence (H&M confirmation: always 0.95) instead of using
the weighted sum. -/
theorem spec_C7_confidence_amended :
    (∀ r : ParsedRec,
      calculate_confidence r
        = (if truthyStr r.merchant_name then (0.1 : ℚ) else 0)
          + (if truthyStr r.order_id then 0.3 else 0)
          + (if r.delivery_date.isSome then 0.2 else 0)
          + (if r.return_deadline.isSome then 0.2 else 0)
          + (if !r.products.isEmpty then 0.1 else 0)
          + (if truthyRat r.amount then 0.1 else 0)
      ∧ 0 ≤ calculate_confidence r ∧ calculate_confidence r ≤ 1)
  ∧ (∀ (dp rules : String → Option Int) (raw_text from_email : String),
      (parse_text_fallback dp rules raw_text from_email).parsed_confidence
        = (if truthyStr (parse_text_fallback dp rules raw_text from_email).merchant_name
            then (0.2 : ℚ) else 0)
          + (if truthyStr (parse_text_fallback dp rules raw_text from_email).order_id
            then 0.3 else 0)
          + (if truthyRat (parse_text_fallback dp rules raw_text from_email).amount
            then 0.2 else 0)
          + (if (parse_text_fallback dp rules raw_text from_email).delivery_date.isSome
            then 0.2 else 0)
          + (if (parse_text_fallback dp rules raw_text from_email).order_date.isSome
            then 0.1 else 0)
      ∧ 0 ≤ (parse_text_fallback dp rules raw_text from_email).parsed_confidence
      ∧ (parse_text_fallback dp rules raw_text from_email).parsed_confidence ≤ 1)
  ∧ (∀ (dp : String → Option Int) (doc : HMDoc),
      (hmParseConfirmation dp doc).confidence = 0.95) := by
  refine ⟨calculate_confidence_flat, ?_, fun dp doc => rfl⟩
  intro dp rules raw_text from_email
  unfold parse_text_fallback
  dsimp only
  exact fb_calculate_confidence_flat _

/-- The empty document. -/
def emptyHMDoc : HMDoc :=
  { links := [], articleRowTexts := [], tables := [], divTexts := [], text := "" }

/-- A date resolver that never resolves. -/
def dpNone : String → Option Int := fun _ => none

/-- C7 counterexample: on the empty document the H&M confirmation parser
returns confidence 0.95, while the weighted sum over its populated fields
(merchant name and the placeholder product only) is 0.2 — the record's
confidence does not equal the weighted sum. -/
theorem spec_C7_confidence_counterexample :
    (hmParseConfirmation dpNone emptyHMDoc).confidence = 0.95
  ∧ calculate_confidence (hmParseConfirmation dpNone emptyHMDoc) = 0.2
  ∧ ¬ ((0.95 : ℚ) = 0.2) := by
  refine ⟨rfl, ?_, by norm_num⟩
  with_unfolding_all decide
